import Mathlib

/-
  Verification development for the `binoyjayan/lox` tree-walking interpreter
  (Rust).  The Rust sources are shallowly embedded into Lean:

  * `f64` numbers are modelled as `Rat` (the claims under study do not depend
    on float rounding, infinities or NaN);
  * `Rc<T>` pointer identity of AST nodes (used as the key of the resolver's
    side-table `locals : HashMap<Rc<Expr>, usize>`) is modelled by an integer
    `id` carried by the two resolvable expression kinds (`Variable`,
    `Assign`), exactly as suggested in §9 of the specification;
  * `HashMap` is modelled as an association list where an insert conses a new
    binding in front (so the most recent insert wins on lookup, matching
    `HashMap::insert` overwrite semantics);
  * `Rc<RefCell<Environment>>` cells are modelled by indices into an explicit
    heap (`envs : List Environment`) threaded through the interpreter;
  * unbounded loops/recursion (`while`, recursive descent, nested block
    comments, function calls) take an explicit fuel argument; exhausting the
    fuel yields the artificial `LoxResult.systemError "out of fuel"`, which
    is never produced in any run appearing in a theorem below;
  * `println!` diagnostics are modelled as an output trace where observable
    (the `print` statement) and as a no-op where the Rust code merely logs
    and continues (`visit_unary_expr`).

  The snapshot of the repository mixes files from more than one commit
  (e.g. `error.rs` lacks the `ReturnValue` variant that `interpreter.rs`
  constructs via `LoxResult::return_value`, and `token.rs` stores a
  `Literal` while `parser.rs` reads an `Object` out of it).  Where files
  disagree, each definition below follows the file cited by the claim it
  serves, and the seams are noted in comments.
-/

namespace Lox

/-- Token kinds, from `token.rs` (`enum TokenType`). -/
inductive TokenType where
  | leftParen | rightParen | leftBrace | rightBrace
  | comma | dot | minus | plus | semicolon | slash | star
  | bang | bangEqual
  | equal | equalEqual
  | greater | greaterEqual
  | less | lessEqual
  | identifier | stringLiteral | number
  | andKw | classKw | elseKw | falseKw | funKw | forKw | ifKw | nilKw | orKw
  | printKw | returnKw | superKw | thisKw | trueKw | varKw | whileKw | breakKw
  | eof
deriving DecidableEq, Repr

/-- Literal payload of a token, from `token.rs` (`enum Literal`). -/
inductive Literal where
  | identifier (s : String)
  | str (s : String)
  | number (n : Rat)
  | bool (b : Bool)
  | nil
deriving DecidableEq, Repr

/-- A scanner token, from `token.rs` (`struct Token`). -/
structure Token where
  ttype : TokenType
  lexeme : String
  literal : Option Literal
  line : Nat
  col : Nat
deriving DecidableEq, Repr

/-- Insert into an association-list model of `HashMap`: the new binding is
consed in front, so `lookup` (first match) sees the latest insert, matching
`HashMap::insert` overwrite semantics. -/
def mapInsert {α : Type} (k : String) (v : α) (m : List (String × α)) :
    List (String × α) :=
  (k, v) :: m

/- The runtime value type (`object.rs`, `enum Object`), mutually recursive
with the AST because literal expressions carry an `Object` and function
values carry their declaration.  `Instance` and `Native` payloads are
reduced to what the claims exercise (their class name / native name); no
claim constructs or calls them. -/
mutual

/-- Runtime values, from `object.rs` (`enum Object`). -/
inductive Object where
  | identifier (s : String)
  | str (s : String)
  | number (n : Rat)
  | bool (b : Bool)
  | func (f : LoxFunction)
  | klass (c : LoxClass)
  | inst (className : String)
  | native (name : String)
  | nil
  | illegalOperation

/-- A user function value, from `functions_lox.rs` (`struct LoxFunction`):
declaration name, the `is_initializer` flag (field `isInit` here),
parameters, body, and the closure environment (a heap reference). -/
inductive LoxFunction where
  | mk (name : Token) (isInit : Bool) (params : List Token)
       (body : List Stmt) (closure : Nat)

/-- A class value, from `lox_class.rs` (`struct LoxClass`): a name and the
method map.  Note: this struct has NO superclass field anywhere in the
repository (the parser has no `class` rule and no `<` inheritance syntax),
so the "superclass chain" of a class is empty. -/
inductive LoxClass where
  | mk (name : String) (methods : List (String × Object))

/-- Expressions.  `expr.rs` is generated by `gen-ast.rs` and absent from the
snapshot; the variants and fields are reconstructed from the `ExprVisitor`
trait used by `interpreter.rs` (visit_assign / binary / call / grouping /
literal / logical / unary / variable) and the parser's constructions.
`variable` and `assign` carry the node-identity `id` used as the key of the
resolver side-table. -/
inductive Expr where
  | assign (name : Token) (value : Expr) (id : Nat)
  | binary (left : Expr) (operator : Token) (right : Expr)
  | call (callee : Expr) (paren : Token) (arguments : List Expr)
  | grouping (expression : Expr)
  | literal (value : Option Object)
  | logical (left : Expr) (operator : Token) (right : Expr)
  | unary (operator : Token) (right : Expr)
  | variable (name : Token) (id : Nat)

/-- Statements, from the `StmtVisitor` trait used by `interpreter.rs` and
the parser's constructions.  The field `init` of `var` is the Rust field
`initializer`. -/
inductive Stmt where
  | block (statements : List Stmt)
  | classStmt (name : Token)
  | expression (expr : Expr)
  | function (name : Token) (params : List Token) (body : List Stmt)
  | ifStmt (condition : Expr) (thenBranch : Stmt) (elseBranch : Option Stmt)
  | print (expression : Expr)
  | returnStmt (keyword : Token) (value : Option Expr)
  | var (name : Token) (init : Option Expr)
  | whileStmt (condition : Expr) (body : Stmt)
  | breakStmt (token : Token)

end

instance : Inhabited Object := ⟨Object.nil⟩

def LoxFunction.name : LoxFunction → Token
  | .mk n _ _ _ _ => n

def LoxFunction.isInit : LoxFunction → Bool
  | .mk _ i _ _ _ => i

def LoxFunction.params : LoxFunction → List Token
  | .mk _ _ p _ _ => p

def LoxFunction.body : LoxFunction → List Stmt
  | .mk _ _ _ b _ => b

def LoxFunction.closure : LoxFunction → Nat
  | .mk _ _ _ _ c => c

/-- Arity of a user function (`functions_lox.rs`, `impl LoxCallable for
LoxFunction`): the number of parameters. -/
def LoxFunction.arity (f : LoxFunction) : Nat := f.params.length

def LoxClass.name : LoxClass → String
  | .mk n _ => n

def LoxClass.methods : LoxClass → List (String × Object)
  | .mk _ m => m

/-- Method lookup, from `lox_class.rs` (`LoxClass::find_method`): a plain
lookup in the class's own method map (`self.methods.get(&name).cloned()`). -/
def LoxClass.findMethod (c : LoxClass) (name : String) : Option Object :=
  c.methods.lookup name

/-- Class arity, from `lox_class.rs` (`impl LoxCallable for LoxClass`): the
arity of the `init` method when one is bound to a function value, else 0. -/
def LoxClass.arity (c : LoxClass) : Nat :=
  match c.findMethod "init" with
  | some (Object.func f) => f.arity
  | _ => 0

/-- Method search over an explicit chain of classes, following the
specification's words "`find_method(name)` searches the class, then the
superclass chain": the first class in the chain that binds the name wins. -/
def findMethodChain (chain : List LoxClass) (name : String) : Option Object :=
  match chain with
  | [] => none
  | c :: rest =>
    match c.methods.lookup name with
    | some m => some m
    | none => findMethodChain rest name

/-- The superclass chain of a class object: `struct LoxClass` has no
superclass field (see above), so every class's chain is just itself. -/
def classChain (c : LoxClass) : List LoxClass := [c]

/-- The error / control-flow sum, from `error.rs` (`enum LoxResult`).
`returnValue` is the `ReturnValue` variant that `interpreter.rs` constructs
via `LoxResult::return_value` (the copy of `error.rs` in the snapshot
predates it); `err` is the `Error { line, col, message }` variant. -/
inductive LoxResult where
  | parseError (token : Token) (message : String)
  | runtimeError (token : Token) (message : String)
  | systemError (message : String)
  | err (line : Nat) (col : Nat) (message : String)
  | brk
  | returnValue (value : Object)

/- ------------------------------------------------------------------
   Scanner: block comments (`scanner.rs`, `Scanner::scan_comment` and
   `Scanner::handle_slash`).

   The scanner state relevant to these two functions is the unread suffix
   of the source (`source[current..]`, modelled as the remaining character
   list), the current line and the current column.  `advance` consumes one
   character and bumps the column; `matches(c)` consumes the next character
   exactly when it equals `c`.  Note that the `'\n'` arm of `scan_comment`
   increments the line but (unlike `scan_token`) does not reset the column,
   which the embedding reproduces.
   ------------------------------------------------------------------ -/

/-- `Scanner::scan_comment`: consume characters until the `*/` matching the
already-consumed `/*` is found, recursing on a nested `/*`.  The first
argument is fuel for the (source-terminating) loop and recursion; fuel
exhaustion yields the artificial `systemError "out of fuel"`, never reached
when the fuel exceeds the length of the remaining input. -/
def scanComment : Nat → List Char → Nat → Nat → Except LoxResult (List Char × Nat × Nat)
  | 0, _, _, _ => .error (.systemError "out of fuel")
  | _ + 1, [], line, col => .error (.err line col "Unterminated block comment")
  | f + 1, '*' :: rest, line, col =>
    (match rest with
     | '/' :: rest2 => .ok (rest2, line, col + 2)
     | _ => scanComment f rest line (col + 1))
  | f + 1, '/' :: rest, line, col =>
    (match rest with
     | '*' :: rest2 =>
       (match scanComment f rest2 line (col + 2) with
        | .ok (r, l2, c2) => scanComment f r l2 c2
        | .error e => .error e)
     | _ => scanComment f rest line (col + 1))
  | f + 1, '\n' :: rest, line, col => scanComment f rest (line + 1) (col + 1)
  | f + 1, _ :: rest, line, col => scanComment f rest line (col + 1)

/-- Skip to end of line, for `//` comments (the loop inside
`Scanner::handle_slash`). -/
def skipLineComment : List Char → Nat → (List Char × Nat)
  | [], col => ([], col)
  | '\n' :: rest, col => ('\n' :: rest, col)
  | _ :: rest, col => skipLineComment rest (col + 1)

/-- `Scanner::handle_slash`, entered after the initial `/` has been
consumed: a second `/` starts a line comment, a `*` starts a (nesting)
block comment handled by `scanComment`, anything else emits a `Slash`
token.  The result carries the produced token, if any — a comment produces
none. -/
def handleSlash (fuel : Nat) (cs : List Char) (line col : Nat) :
    Except LoxResult (Option Token × List Char × Nat × Nat) :=
  match cs with
  | '/' :: rest =>
    let (r, c2) := skipLineComment rest (col + 1)
    .ok (none, r, line, c2)
  | '*' :: rest =>
    (match scanComment fuel rest line (col + 1) with
     | .ok (r, l2, c2) => .ok (none, r, l2, c2)
     | .error e => .error e)
  | rest => .ok (some ⟨.slash, "/", none, line, col⟩, rest, line, col)

/-- Specification-side reading of "block comments nest — every opening
`/*` must be matched by a `*/`": a depth counter starting at 1 for the
already-open comment; `*/` closes one level, `/*` opens one, and the
comment is matched exactly when the depth reaches 0 before the input runs
out.  Returns the input remaining after the matching `*/`. -/
def matchComment : Nat → List Char → Option (List Char)
  | _, [] => none
  | d, '*' :: '/' :: rest => if d = 1 then some rest else matchComment (d - 1) rest
  | d, '/' :: '*' :: rest => matchComment (d + 1) rest
  | d, _ :: rest => matchComment d rest


/-- The statement relating one step of the scanner to the specification
automaton. -/
def scanAgrees (f : Nat) (cs : List Char) (line col : Nat) : Prop :=
  match matchComment 1 cs with
  | some r => ∃ l2 c2, scanComment f cs line col = .ok (r, l2, c2)
  | none => ∃ l2 c2, scanComment f cs line col = .error (.err l2 c2 "Unterminated block comment")

/- ------------------------------------------------------------------
   Evaluator: pure value-level operations (`interpreter.rs`).
   ------------------------------------------------------------------ -/

/-- `Interpreter::is_truthy`: `false` and `nil` are falsey, everything else
truthy. -/
def isTruthy : Object → Bool
  | .bool b => b
  | .nil => false
  | _ => true

/-- Display form of a number, modelling `format!("{}", f)` on `f64`:
integral values print with no fractional part.  (Claims below use it only
symbolically or on integral values.) -/
def fmtNum (q : Rat) : String :=
  if q.den = 1 then toString q.num else toString q

/-- `str::repeat`: the string repeated `n` times. -/
def strRepeat (s : String) (n : Nat) : String :=
  String.join (List.replicate n s)

/-- The Rust cast `f as usize`: truncation toward zero, saturating at 0 for
negative values (on the claims' inputs `Rat.floor.toNat` agrees: floor and
truncation coincide for non-negatives, and `Int.toNat` clamps negatives to
0 just as the saturating cast does). -/
def ratToUsize (q : Rat) : Nat := q.floor.toNat

/-- The operand dispatch of `Interpreter::visit_binary_expr`
(`interpreter.rs` lines 214-260), after both operands have been evaluated:
a match on the pair of operand kinds, then on the operator's token type,
producing `illegalOperation` for every unhandled combination.  Note that
the `(Nil, _)` arm of the source matches `TokenType::Equal` — the `=`
assignment token, which the parser never attaches to a Binary node — and
not `TokenType::EqualEqual`. -/
def evalBinaryOp (ttype : TokenType) : Object → Object → Object
  | .number l, .number r =>
    (match ttype with
     | .minus => .number (l - r)
     | .slash => .number (l / r)
     | .star => .number (l * r)
     | .plus => .number (l + r)
     | .greater => .bool (decide (l > r))
     | .greaterEqual => .bool (decide (l ≥ r))
     | .less => .bool (decide (l < r))
     | .lessEqual => .bool (decide (l ≤ r))
     | .bangEqual => .bool (decide (l ≠ r))
     | .equalEqual => .bool (decide (l = r))
     | _ => .illegalOperation)
  | .number l, .str r =>
    (match ttype with
     | .plus => .str (fmtNum l ++ r)
     | .star => .str (strRepeat r (ratToUsize l))
     | _ => .illegalOperation)
  | .str l, .number r =>
    (match ttype with
     | .plus => .str (l ++ fmtNum r)
     | .star => .str (strRepeat l (ratToUsize r))
     | _ => .illegalOperation)
  | .str l, .str r =>
    (match ttype with
     | .plus => .str (l ++ r)
     | .bangEqual => .bool (decide (l ≠ r))
     | .equalEqual => .bool (decide (l = r))
     | _ => .illegalOperation)
  | .bool l, .bool r =>
    (match ttype with
     | .bangEqual => .bool (decide (l ≠ r))
     | .equalEqual => .bool (decide (l = r))
     | _ => .illegalOperation)
  | .nil, .nil =>
    (match ttype with
     | .bangEqual => .bool false
     | .equalEqual => .bool true
     | _ => .illegalOperation)
  | .nil, _ =>
    (match ttype with
     | .equal => .bool false
     | .bangEqual => .bool true
     | _ => .illegalOperation)
  | _, _ => .illegalOperation

/-- The tail of `Interpreter::visit_binary_expr`: an `illegalOperation`
result becomes the runtime error `"Illegal operation"` at the operator
token, anything else is returned.  (The source compares the result with
`Object::IllegalOperation` by `PartialEq`; the match here is the same
test.) -/
def visitBinaryResult (operator : Token) (l r : Object) : Except LoxResult Object :=
  match evalBinaryOp operator.ttype l r with
  | .illegalOperation => .error (.runtimeError operator "Illegal operation")
  | result => .ok result

/-- The operator dispatch of `Interpreter::visit_unary_expr`, after the
operand has been evaluated.  For `-` on a non-Number the source prints
"Negation operation is not allowed on '…'" to stdout and then returns
`Ok(Object::Nil)` — it does NOT produce an error; the println is modelled
as a no-op.  The unreachable-operator arm raises `error_at_token`, which
builds a `ParseError`. -/
def visitUnaryResult (operator : Token) (right : Object) : Except LoxResult Object :=
  match operator.ttype with
  | .minus =>
    (match right with
     | .number n => .ok (.number (-n))
     | _ => .ok .nil)
  | .bang => .ok (.bool (!(isTruthy right)))
  | _ => .error (.parseError operator "Unreachable")

/- ------------------------------------------------------------------
   Environments (`environment.rs`) and the interpreter state.

   Rust's `Rc<RefCell<Environment>>` cells are modelled by indices into the
   heap `envs`; a cell is never removed (matching `Rc` liveness), and the
   `RefCell` interior mutation is an update of the indexed entry.
   ------------------------------------------------------------------ -/

/-- An environment: a name-to-value map plus the optional enclosing
environment (`environment.rs`, `struct Environment`); `enclosing` is a heap
reference. -/
structure Environment where
  values : List (String × Object)
  enclosing : Option Nat

instance : Inhabited Environment := ⟨⟨[], none⟩⟩

/-- The interpreter's state (`interpreter.rs`, `struct Interpreter`):
the heap of environment cells, the current-environment pointer (the
`environment: RefCell<Rc<RefCell<Environment>>>` field), the globals
pointer, and the resolver side-table `locals` keyed by expression node
identity.  `output` records the lines written by `print` statements. -/
structure InterpState where
  envs : List Environment
  environment : Nat
  globals : Nat
  locals : List (Nat × Nat)
  output : List String

def getEnv (st : InterpState) (i : Nat) : Environment :=
  st.envs.getD i default

def setEnv (st : InterpState) (i : Nat) (e : Environment) : InterpState :=
  { st with envs := st.envs.set i e }

/-- `Environment::define`: insert into the map of cell `i` (a name may be
redefined; the new binding wins). -/
def defineAt (st : InterpState) (i : Nat) (name : String) (v : Object) : InterpState :=
  setEnv st i { getEnv st i with values := mapInsert name v (getEnv st i).values }

/-- `Environment::get`: look the name up in this cell, else recurse into
the enclosing cell, else the runtime error `Undefined variable '…'`.  The
fuel bounds the chain walk (chains built by the interpreter are acyclic,
so any fuel above the heap size is enough). -/
def envGet : Nat → InterpState → Nat → Token → Except LoxResult Object
  | 0, _, _, _ => .error (.systemError "out of fuel")
  | f + 1, st, i, name =>
    match (getEnv st i).values.lookup name.lexeme with
    | some obj => .ok obj
    | none =>
      match (getEnv st i).enclosing with
      | some p => envGet f st p name
      | none => .error (.runtimeError name ("Undefined variable '" ++ name.lexeme ++ "'"))

/-- `Environment::get_at`: hop exactly `distance` parents, then read the
name there.  The source unwraps both the parent pointer and the map entry
(`.unwrap()`), panicking when absent; the panic is modelled as a
`systemError`. -/
def envGetAt (st : InterpState) : Nat → Nat → Token → Except LoxResult Object
  | 0, i, name =>
    (match (getEnv st i).values.lookup name.lexeme with
     | some obj => .ok obj
     | none => .error (.systemError "panic: unwrap on None"))
  | d + 1, i, name =>
    (match (getEnv st i).enclosing with
     | some p => envGetAt st d p name
     | none => .error (.systemError "panic: unwrap on None"))

/-- `Environment::assign`: overwrite an existing binding in this cell, else
recurse into the enclosing cell, else the runtime error
`Undefined variable '…'`. -/
def envAssign : Nat → InterpState → Nat → Token → Object → Except LoxResult Object × InterpState
  | 0, st, _, _, _ => (.error (.systemError "out of fuel"), st)
  | f + 1, st, i, name, v =>
    if ((getEnv st i).values.lookup name.lexeme).isSome then
      (.ok v, setEnv st i { getEnv st i with values := mapInsert name.lexeme v (getEnv st i).values })
    else
      match (getEnv st i).enclosing with
      | some p =>
        (match envAssign f st p name v with
         | (.ok _, st2) => (.ok v, st2)
         | r => r)
      | none => (.error (.runtimeError name ("Undefined variable '" ++ name.lexeme ++ "'")), st)

/-- `Environment::assign_at`: hop exactly `distance` parents, then insert
the binding there unconditionally; a missing parent is an unwrap panic. -/
def envAssignAt (st : InterpState) : Nat → Nat → Token → Object → Except LoxResult InterpState
  | 0, i, name, v => .ok (defineAt st i name.lexeme v)
  | d + 1, i, name, v =>
    (match (getEnv st i).enclosing with
     | some p => envAssignAt st d p name v
     | none => .error (.systemError "panic: unwrap on None"))

/-- `Interpreter::lookup_variable`: a side-table hit resolves by depth from
the current environment; a miss falls back to a by-name lookup in the
globals. -/
def lookupVariable (st : InterpState) (name : Token) (exprId : Nat) : Except LoxResult Object :=
  match st.locals.lookup exprId with
  | some distance => envGetAt st distance st.environment name
  | none => envGet (st.envs.length + 1) st st.globals name

/-- Display form of a value (`object.rs`, `impl fmt::Display for Object`).
Function/class/instance/native forms follow their own `Display` impls (no
claim prints one). -/
def objToString : Object → String
  | .identifier s => s
  | .str s => s
  | .number n => fmtNum n
  | .bool b => if b then "true" else "false"
  | .func f => "<fun " ++ f.name.lexeme ++ ">"
  | .klass c => "<class " ++ c.name ++ ">"
  | .inst cn => "<instance of " ++ cn ++ ">"
  | .native _ => "<native-fn>"
  | .nil => "nil"
  | .illegalOperation => "illegal-op"

/- ------------------------------------------------------------------
   The tree-walking evaluator (`interpreter.rs`), as a mutual recursion on
   an explicit fuel.  Every Rust `?` early return is an explicit match on
   the `(result, state)` pair, so heap mutations made before a failure are
   kept, exactly as `RefCell` mutations survive an `Err` return.
   ------------------------------------------------------------------ -/

mutual

/-- `Interpreter::evaluate` / the `ExprVisitor` impl. -/
def evaluate : Nat → InterpState → Expr → Except LoxResult Object × InterpState
  | 0, st, _ => (.error (.systemError "out of fuel"), st)
  | f + 1, st, e =>
    match e with
    | .literal v => (.ok (v.getD .nil), st)
    | .grouping inner => evaluate f st inner
    | .unary op right =>
      (match evaluate f st right with
       | (.ok r, st1) => (visitUnaryResult op r, st1)
       | (.error e1, st1) => (.error e1, st1))
    | .binary left op right =>
      (match evaluate f st left with
       | (.ok l, st1) =>
         (match evaluate f st1 right with
          | (.ok r, st2) => (visitBinaryResult op l r, st2)
          | (.error e1, st2) => (.error e1, st2))
       | (.error e1, st1) => (.error e1, st1))
    | .logical left op right =>
      (match evaluate f st left with
       | (.ok l, st1) =>
         if op.ttype = .orKw then
           if isTruthy l then (.ok l, st1) else evaluate f st1 right
         else
           if !(isTruthy l) then (.ok l, st1) else evaluate f st1 right
       | (.error e1, st1) => (.error e1, st1))
    | .variable name id => (lookupVariable st name id, st)
    | .assign name value id =>
      (match evaluate f st value with
       | (.ok v, st1) =>
         (match st1.locals.lookup id with
          | some distance =>
            (match envAssignAt st1 distance st1.environment name v with
             | .ok st2 => (.ok v, st2)
             | .error e1 => (.error e1, st1))
          | none =>
            (match envAssign (st1.envs.length + 1) st1 st1.globals name v with
             | (.ok _, st2) => (.ok v, st2)
             | (.error e1, st2) => (.error e1, st2)))
       | (.error e1, st1) => (.error e1, st1))
    | .call callee paren args =>
      (match evaluate f st callee with
       | (.ok cv, st1) =>
         (match evalArgs f st1 args with
          | (.ok argv, st2) =>
            (match cv with
             | .func fobj =>
               if argv.length ≠ fobj.arity then
                 (.error (.runtimeError paren
                   ("Expected " ++ toString fobj.arity ++ " arguments but got "
                     ++ toString argv.length)), st2)
               else callFunction f st2 fobj argv
             | .klass c =>
               if argv.length ≠ c.arity then
                 (.error (.runtimeError paren
                   ("Expected " ++ toString c.arity ++ " arguments but got "
                     ++ toString argv.length)), st2)
               else instantiateClass f st2 c argv
             | _ => (.error (.runtimeError paren "Can only call functions and classes"), st2))
          | (.error e1, st2) => (.error e1, st2))
       | (.error e1, st1) => (.error e1, st1))

/-- Left-to-right evaluation of a call's argument list, stopping at the
first error (the `for arg in …` loop of `visit_call_expr`). -/
def evalArgs : Nat → InterpState → List Expr → Except LoxResult (List Object) × InterpState
  | 0, st, _ => (.error (.systemError "out of fuel"), st)
  | _ + 1, st, [] => (.ok [], st)
  | f + 1, st, a :: rest =>
    match evaluate f st a with
    | (.ok v, st1) =>
      (match evalArgs f st1 rest with
       | (.ok vs, st2) => (.ok (v :: vs), st2)
       | (.error e1, st2) => (.error e1, st2))
    | (.error e1, st1) => (.error e1, st1)

/-- `LoxFunction::call` (`functions_lox.rs`): run the body via
`execute_block` in a fresh environment enclosing the closure, with the
parameters bound to the arguments; a `ReturnValue` unwind becomes the call
result, a normal completion yields `Nil` (or the bound `this` for an
initializer). -/
def callFunction : Nat → InterpState → LoxFunction → List Object → Except LoxResult Object × InterpState
  | 0, st, _, _ => (.error (.systemError "out of fuel"), st)
  | f + 1, st, fobj, args =>
    let e : Environment :=
      { values := (fobj.params.zip args).foldl (fun m pa => mapInsert pa.1.lexeme pa.2 m) [],
        enclosing := some fobj.closure }
    match executeBlock f st fobj.body e with
    | (.error (.returnValue v), st1) => (.ok v, st1)
    | (.error e1, st1) => (.error e1, st1)
    | (.ok _, st1) =>
      if fobj.isInit then
        (envGetAt st1 0 fobj.closure ⟨.thisKw, "this", none, 0, 0⟩, st1)
      else
        (.ok .nil, st1)

/-- `LoxClass::instantiate` (`lox_class.rs`): create the instance; when an
`init` method exists, `bind` it (a fresh environment holding `this` over
the method's closure) and call it; return the instance. -/
def instantiateClass : Nat → InterpState → LoxClass → List Object → Except LoxResult Object × InterpState
  | 0, st, _, _ => (.error (.systemError "out of fuel"), st)
  | f + 1, st, c, args =>
    let inst := Object.inst c.name
    match c.findMethod "init" with
    | some (.func fInit) =>
      let bindEnv : Environment := { values := [("this", inst)], enclosing := some fInit.closure }
      let st1 := { st with envs := st.envs ++ [bindEnv] }
      let bound : LoxFunction := .mk fInit.name fInit.isInit fInit.params fInit.body st.envs.length
      (match callFunction f st1 bound args with
       | (.ok _, st2) => (.ok inst, st2)
       | (.error e1, st2) => (.error e1, st2))
    | _ => (.ok inst, st)

/-- `Interpreter::execute` / the `StmtVisitor` impl. -/
def execute : Nat → InterpState → Stmt → Except LoxResult Unit × InterpState
  | 0, st, _ => (.error (.systemError "out of fuel"), st)
  | f + 1, st, s =>
    match s with
    | .expression e =>
      (match evaluate f st e with
       | (.ok _, st1) => (.ok (), st1)
       | (.error e1, st1) => (.error e1, st1))
    | .print e =>
      (match evaluate f st e with
       | (.ok v, st1) => (.ok (), { st1 with output := st1.output ++ [objToString v] })
       | (.error e1, st1) => (.error e1, st1))
    | .var name init =>
      (match (match init with
              | some ie => evaluate f st ie
              | none => (.ok .nil, st)) with
       | (.ok v, st1) => (.ok (), defineAt st1 st1.environment name.lexeme v)
       | (.error e1, st1) => (.error e1, st1))
    | .block stmts =>
      executeBlock f st stmts { values := [], enclosing := some st.environment }
    | .ifStmt cond thenBranch elseBranch =>
      (match evaluate f st cond with
       | (.ok v, st1) =>
         if isTruthy v then execute f st1 thenBranch
         else
           (match elseBranch with
            | some eb => execute f st1 eb
            | none => (.ok (), st1))
       | (.error e1, st1) => (.error e1, st1))
    | .whileStmt cond body => whileLoop f st cond body
    | .function name params body =>
      (.ok (), defineAt st st.environment name.lexeme
        (.func (.mk name false params body st.environment)))
    | .returnStmt _ value =>
      (match (match value with
              | some ve => evaluate f st ve
              | none => (.ok .nil, st)) with
       | (.ok v, st1) => (.error (.returnValue v), st1)
       | (.error e1, st1) => (.error e1, st1))
    | .breakStmt _ => (.error .brk, st)
    | .classStmt name =>
      let st1 := defineAt st st.environment name.lexeme .nil
      (match envAssign (st1.envs.length + 1) st1 st1.environment name
               (.klass (.mk name.lexeme [])) with
       | (.ok _, st2) => (.ok (), st2)
       | (.error e1, st2) => (.error e1, st2))

/-- The `while` loop of `visit_while_stmt`: re-evaluate the condition, run
the body while truthy; a `Break` unwind terminates the loop normally, any
other unwind propagates. -/
def whileLoop : Nat → InterpState → Expr → Stmt → Except LoxResult Unit × InterpState
  | 0, st, _, _ => (.error (.systemError "out of fuel"), st)
  | f + 1, st, cond, body =>
    match evaluate f st cond with
    | (.ok v, st1) =>
      if isTruthy v then
        match execute f st1 body with
        | (.error .brk, st2) => (.ok (), st2)
        | (.error e1, st2) => (.error e1, st2)
        | (.ok _, st2) => whileLoop f st2 cond body
      else (.ok (), st1)
    | (.error e1, st1) => (.error e1, st1)

/-- `Interpreter::execute_block`: push a fresh heap cell for the given
environment, make it current, run the statements, and unconditionally
restore the previous current-environment pointer — also when the
statements unwound with a runtime error, a `ReturnValue` or a `Break`
(the source performs `self.environment.replace(previous)` after the
`try_for_each`, on every path). -/
def executeBlock : Nat → InterpState → List Stmt → Environment → Except LoxResult Unit × InterpState
  | 0, st, _, _ => (.error (.systemError "out of fuel"), st)
  | f + 1, st, stmts, env =>
    let st1 := { st with envs := st.envs ++ [env], environment := st.envs.length }
    let res := executeStmts f st1 stmts
    (res.1, { res.2 with environment := st.environment })

/-- Execute statements in order, stopping at the first unwind (the
`try_for_each` in `execute_block`; also the body of
`Interpreter::interpret`, which stops at the first `Err`). -/
def executeStmts : Nat → InterpState → List Stmt → Except LoxResult Unit × InterpState
  | 0, st, _ => (.error (.systemError "out of fuel"), st)
  | _ + 1, st, [] => (.ok (), st)
  | f + 1, st, s :: rest =>
    match execute f st s with
    | (.ok _, st1) => executeStmts f st1 rest
    | (.error e1, st1) => (.error e1, st1)

end

/-- `Interpreter::interpret`: execute the program's statements, stopping at
the first error. -/
def interpret (fuel : Nat) (st : InterpState) (stmts : List Stmt) :
    Except LoxResult Unit × InterpState :=
  executeStmts fuel st stmts

/-- `Interpreter::new`: a single global environment with `clock` pre-bound
to the native clock (the source wraps it as `Object::Func(Callable)` over a
`NativeClock`; the `native` variant stands for that callable — no claim
calls it). -/
def initState (locals : List (Nat × Nat)) : InterpState :=
  { envs := [{ values := [("clock", Object.native "clock")], enclosing := none }],
    environment := 0, globals := 0, locals := locals, output := [] }

/- ------------------------------------------------------------------
   The static resolver (`resolver.rs`).

   The scope stack is stored innermost-FIRST (the reverse of the Rust
   `Vec`, whose `push`/`pop`/`last` all act on the end), so `push` is a
   cons, `last` is the head, and `scopes.iter().rev().enumerate()` is
   `scopes.enum` with index 0 the innermost scope.
   ------------------------------------------------------------------ -/

/-- `resolver.rs`, `enum FunctionType`. -/
inductive FunctionType where
  | none
  | function
deriving DecidableEq

/-- The resolver's state: the scope stack (name ↦ defined?), the loop flag,
the error flag, the current function type, the interpreter side-table it
fills through `Interpreter::resolve`, and the reported error messages. -/
structure RState where
  scopes : List (List (String × Bool))
  inLoop : Bool
  hadError : Bool
  currentFunction : FunctionType
  locals : List (Nat × Nat)
  errors : List String

def beginScope (rs : RState) : RState :=
  { rs with scopes := [] :: rs.scopes }

def endScope (rs : RState) : RState :=
  { rs with scopes := rs.scopes.tail }

/-- `Resolver::resolve_error`: set `had_error` and report the message. -/
def resolveErr (rs : RState) (msg : String) : RState :=
  { rs with hadError := true, errors := rs.errors ++ [msg] }

/-- `Resolver::declare`: in the innermost scope (if any), report a
redefinition error when the name is already present, then insert
name ↦ false. -/
def declareName (rs : RState) (name : Token) : RState :=
  match rs.scopes with
  | [] => rs
  | scope :: rest =>
    let rs1 :=
      if (scope.lookup name.lexeme).isSome then
        resolveErr rs "A variable with the same name already exists in this scope"
      else rs
    { rs1 with scopes := mapInsert name.lexeme false scope :: rest }

/-- `Resolver::define`: mark the name defined in the innermost scope when
it is present there. -/
def defineName (rs : RState) (name : Token) : RState :=
  match rs.scopes with
  | [] => rs
  | scope :: rest =>
    if (scope.lookup name.lexeme).isSome then
      { rs with scopes := mapInsert name.lexeme true scope :: rest }
    else rs

/-- `Resolver::resolve_local` (`resolver.rs` lines 84-90): iterate the
scopes innermost-first (`scopes.iter().rev().enumerate()`, index 0 =
innermost) and, for EVERY scope containing the name, insert
(expr-id ↦ index) into the interpreter side-table.  The source has no
early return/break, so when several scopes contain the name the final
entry is the index of the OUTERMOST one (the last insert wins). -/
def resolveLocal (rs : RState) (exprId : Nat) (name : Token) : RState :=
  let step := fun (acc : List (Nat × Nat)) (sc : Nat × List (String × Bool)) =>
    if (sc.2.lookup name.lexeme).isSome then (exprId, sc.1) :: acc else acc
  { rs with locals := rs.scopes.enum.foldl step rs.locals }

mutual

/-- The resolver's `ExprVisitor` impl. -/
def resolveExpr : Nat → RState → Expr → Except LoxResult Unit × RState
  | 0, rs, _ => (.error (.systemError "out of fuel"), rs)
  | f + 1, rs, e =>
    match e with
    | .assign name value id =>
      (match resolveExpr f rs value with
       | (.ok _, rs1) => (.ok (), resolveLocal rs1 id name)
       | (.error e1, rs1) => (.error e1, rs1))
    | .literal _ => (.ok (), rs)
    | .binary left _ right =>
      (match resolveExpr f rs left with
       | (.ok _, rs1) => resolveExpr f rs1 right
       | (.error e1, rs1) => (.error e1, rs1))
    | .call callee _ args =>
      (match resolveExpr f rs callee with
       | (.ok _, rs1) => resolveExprs f rs1 args
       | (.error e1, rs1) => (.error e1, rs1))
    | .grouping inner => resolveExpr f rs inner
    | .logical left _ right =>
      (match resolveExpr f rs left with
       | (.ok _, rs1) => resolveExpr f rs1 right
       | (.error e1, rs1) => (.error e1, rs1))
    | .unary _ right => resolveExpr f rs right
    | .variable name id =>
      (match rs.scopes with
       | scope :: _ =>
         if scope.lookup name.lexeme = some false then
           (.error (.runtimeError name "Can't read local variable its own initializer"), rs)
         else (.ok (), resolveLocal rs id name)
       | [] => (.ok (), resolveLocal rs id name))

def resolveExprs : Nat → RState → List Expr → Except LoxResult Unit × RState
  | 0, rs, _ => (.error (.systemError "out of fuel"), rs)
  | _ + 1, rs, [] => (.ok (), rs)
  | f + 1, rs, e :: rest =>
    match resolveExpr f rs e with
    | (.ok _, rs1) => resolveExprs f rs1 rest
    | (.error e1, rs1) => (.error e1, rs1)

/-- The resolver's `StmtVisitor` impl.  `visit_while_stmt` sets the loop
flag around condition and body and restores it; `visit_break_stmt` reports
"break statements are not allowed here" when the flag is off.
`resolve_function` (see `resolveFunctionBody`) saves and restores
`current_function` but NOT the loop flag. -/
def resolveStmt : Nat → RState → Stmt → Except LoxResult Unit × RState
  | 0, rs, _ => (.error (.systemError "out of fuel"), rs)
  | f + 1, rs, s =>
    match s with
    | .block stmts =>
      (match resolveStmts f (beginScope rs) stmts with
       | (.ok _, rs1) => (.ok (), endScope rs1)
       | (.error e1, rs1) => (.error e1, rs1))
    | .classStmt name => (.ok (), defineName (declareName rs name) name)
    | .expression e => resolveExpr f rs e
    | .function name params body =>
      resolveFunctionBody f (defineName (declareName rs name) name) params body .function
    | .ifStmt cond thenBranch elseBranch =>
      (match resolveExpr f rs cond with
       | (.ok _, rs1) =>
         (match resolveStmt f rs1 thenBranch with
          | (.ok _, rs2) =>
            (match elseBranch with
             | some eb => resolveStmt f rs2 eb
             | none => (.ok (), rs2))
          | (.error e1, rs2) => (.error e1, rs2))
       | (.error e1, rs1) => (.error e1, rs1))
    | .print e => resolveExpr f rs e
    | .returnStmt _ value =>
      let rs1 :=
        if rs.currentFunction = FunctionType.none then
          resolveErr rs "Can't return from top-level code"
        else rs
      (match value with
       | some v =>
         (match resolveExpr f rs1 v with
          | (.ok _, rs2) => (.ok (), rs2)
          | (.error e1, rs2) => (.error e1, rs2))
       | none => (.ok (), rs1))
    | .var name init =>
      let rs1 := declareName rs name
      (match init with
       | some ie =>
         (match resolveExpr f rs1 ie with
          | (.ok _, rs2) => (.ok (), defineName rs2 name)
          | (.error e1, rs2) => (.error e1, rs2))
       | none => (.ok (), defineName rs1 name))
    | .whileStmt cond body =>
      (match resolveExpr f { rs with inLoop := true } cond with
       | (.ok _, rs2) =>
         (match resolveStmt f rs2 body with
          | (.ok _, rs3) => (.ok (), { rs3 with inLoop := rs.inLoop })
          | (.error e1, rs3) => (.error e1, rs3))
       | (.error e1, rs2) => (.error e1, rs2))
    | .breakStmt _ =>
      if !rs.inLoop then (.ok (), resolveErr rs "break statements are not allowed here")
      else (.ok (), rs)

/-- `Resolver::resolve_function`: save `current_function`, open a scope,
declare+define each parameter, resolve the body, close the scope, restore
`current_function`.  The loop flag `in_loop` is deliberately not touched
here, mirroring the source. -/
def resolveFunctionBody : Nat → RState → List Token → List Stmt → FunctionType → Except LoxResult Unit × RState
  | 0, rs, _, _, _ => (.error (.systemError "out of fuel"), rs)
  | f + 1, rs, params, body, ftype =>
    let rs1 := beginScope { rs with currentFunction := ftype }
    let rs2 := params.foldl (fun acc p => defineName (declareName acc p) p) rs1
    (match resolveStmts f rs2 body with
     | (.ok _, rs3) => (.ok (), { endScope rs3 with currentFunction := rs.currentFunction })
     | (.error e1, rs3) => (.error e1, rs3))

/-- `Resolver::resolve`: resolve statements in order, stopping at the first
thrown error. -/
def resolveStmts : Nat → RState → List Stmt → Except LoxResult Unit × RState
  | 0, rs, _ => (.error (.systemError "out of fuel"), rs)
  | _ + 1, rs, [] => (.ok (), rs)
  | f + 1, rs, s :: rest =>
    match resolveStmt f rs s with
    | (.ok _, rs1) => resolveStmts f rs1 rest
    | (.error e1, rs1) => (.error e1, rs1)

end

/-- `Resolver::new`: empty scope stack, no loop, no error, top-level
function type, empty side-table. -/
def initR : RState :=
  { scopes := [], inLoop := false, hadError := false,
    currentFunction := .none, locals := [], errors := [] }

/-- Resolve a whole program from the initial resolver state. -/
def resolveProgram (fuel : Nat) (stmts : List Stmt) : Except LoxResult Unit × RState :=
  resolveStmts fuel initR stmts

/- ------------------------------------------------------------------
   The recursive-descent parser (`parser.rs`).

   The Rust parser owns `tokens: Vec<Token>` and an index `current`; the
   pair is modelled as a zipper: `done` holds the consumed tokens newest
   first (`previous` is its head) and `rest` the unread ones (`peek` is its
   head).  `had_error`, and the reported messages, mirror `parse_error`.
   `nextId` allocates the node identity of each freshly created
   `Variable` / `Assign` node (a fresh `Rc` in Rust).
   ------------------------------------------------------------------ -/

namespace Parser

structure PState where
  done : List Token
  rest : List Token
  hadError : Bool
  errors : List String
  nextId : Nat

/-- Fallback for out-of-range token access (the token streams fed to the
parser always end in `Eof`, so this is never read in the runs below). -/
def eofFallback : Token := ⟨.eof, "", none, 0, 0⟩

def peek (st : PState) : Token := st.rest.headD eofFallback

def previous (st : PState) : Token := st.done.headD eofFallback

def isAtEnd (st : PState) : Bool := (peek st).ttype == .eof

/-- `Parser::advance`: consume the current token unless at end; return the
most recently consumed token. -/
def advance (st : PState) : Token × PState :=
  if isAtEnd st then (previous st, st)
  else
    match st.rest with
    | t :: rest => (t, { st with done := t :: st.done, rest := rest })
    | [] => (previous st, st)

def check (st : PState) (t : TokenType) : Bool :=
  if isAtEnd st then false else (peek st).ttype == t

/-- `Parser::matches`: consume the current token when its type is among the
given ones. -/
def matchTs (st : PState) (ts : List TokenType) : Bool × PState :=
  match ts with
  | [] => (false, st)
  | t :: rest => if check st t then (true, (advance st).2) else matchTs st rest

/-- `Parser::parse_error`: set `had_error`, report the message, and build
the (returned, not always thrown) `ParseError`. -/
def parseError (st : PState) (tok : Token) (msg : String) : LoxResult × PState :=
  (.parseError tok msg, { st with hadError := true, errors := st.errors ++ [msg] })

/-- `Parser::consume`: take the expected token or report-and-throw. -/
def consume (st : PState) (t : TokenType) (msg : String) : Except LoxResult Token × PState :=
  if check st t then
    let (tok, st1) := advance st
    (.ok tok, st1)
  else
    let (e, st1) := parseError st (peek st) msg
    (.error e, st1)

def freshId (st : PState) : Nat × PState :=
  (st.nextId, { st with nextId := st.nextId + 1 })

/-- Token `Literal` payload to runtime `Object` (the commit of `parser.rs`
in the snapshot stores `Object` in the token; `token.rs` stores `Literal` —
this conversion is the seam between the two). -/
def litToObject : Literal → Object
  | .identifier s => .identifier s
  | .str s => .str s
  | .number n => .number n
  | .bool b => .bool b
  | .nil => .nil

/-- The loop of `Parser::synchronize`: discard tokens until after a
semicolon or before a token that can start a declaration. -/
def syncLoop : Nat → PState → PState
  | 0, st => st
  | f + 1, st =>
    if isAtEnd st then st
    else if (previous st).ttype == .semicolon then st
    else
      match (peek st).ttype with
      | .classKw | .funKw | .varKw | .forKw | .ifKw | .whileKw | .printKw | .returnKw => st
      | _ => syncLoop f (advance st).2

/-- `Parser::synchronize`: advance once, then discard to a statement
boundary. -/
def synchronize (f : Nat) (st : PState) : PState := syncLoop f (advance st).2

/- The grammar methods of `Parser` form one mutually recursive family; to
keep kernel reduction of concrete parses cheap, the family is expressed as
a single structurally recursive engine `pstep` over a request type with
one constructor per Rust method (loop helpers carry their accumulator).
Each arm of `pstep` is the direct translation of the correspondingly named
method of `parser.rs`; the named wrappers below the engine recover the
one-function-per-method interface. -/

/-- One request per `Parser` method (plus its in-method loops, which carry
their accumulators). -/
inductive PReq where
  | decl
  | varDecl
  | funDecl (kind : String)
  | paramLoop (acc : List Token)
  | stmt
  | ifStmt
  | printStmt
  | returnStmt
  | whileStmt
  | breakStmt
  | forStmt
  | exprStmt
  | blockStmts
  | blockLoop (acc : List Stmt)
  | expression
  | assignment
  | logicalOr
  | orLoop (e : Expr)
  | logicalAnd
  | andLoop (e : Expr)
  | equality
  | eqLoop (e : Expr)
  | comparison
  | compLoop (e : Expr)
  | term
  | termLoop (e : Expr)
  | factor
  | factorLoop (e : Expr)
  | unary
  | callRule
  | callLoop (e : Expr)
  | finishCall (callee : Expr)
  | argLoop (acc : List Expr)
  | primary

/-- The possible successful results of a parser method. -/
inductive PVal where
  | vStmt (s : Stmt)
  | vExpr (e : Expr)
  | vStmts (l : List Stmt)
  | vExprs (l : List Expr)
  | vToks (l : List Token)

/-- Decode a statement result (the mismatch arm is unreachable: every
request that promises a statement produces one). -/
def toStmt : Except LoxResult PVal × PState → Except LoxResult Stmt × PState
  | (.ok (.vStmt s), st) => (.ok s, st)
  | (.ok _, st) => (.error (.systemError "kind mismatch"), st)
  | (.error e1, st) => (.error e1, st)

def toExpr : Except LoxResult PVal × PState → Except LoxResult Expr × PState
  | (.ok (.vExpr e), st) => (.ok e, st)
  | (.ok _, st) => (.error (.systemError "kind mismatch"), st)
  | (.error e1, st) => (.error e1, st)

def toStmts : Except LoxResult PVal × PState → Except LoxResult (List Stmt) × PState
  | (.ok (.vStmts l), st) => (.ok l, st)
  | (.ok _, st) => (.error (.systemError "kind mismatch"), st)
  | (.error e1, st) => (.error e1, st)

def toExprs : Except LoxResult PVal × PState → Except LoxResult (List Expr) × PState
  | (.ok (.vExprs l), st) => (.ok l, st)
  | (.ok _, st) => (.error (.systemError "kind mismatch"), st)
  | (.error e1, st) => (.error e1, st)

def toToks : Except LoxResult PVal × PState → Except LoxResult (List Token) × PState
  | (.ok (.vToks l), st) => (.ok l, st)
  | (.ok _, st) => (.error (.systemError "kind mismatch"), st)
  | (.error e1, st) => (.error e1, st)

/-- The parser engine; each arm mirrors the Rust method named by the
request (see the wrappers below for the per-method doc). -/
def pstep : Nat → PReq → PState → Except LoxResult PVal × PState
  | 0, _, st => (.error (.systemError "out of fuel"), st)
  | f + 1, req, st =>
    match req with
    | .decl =>
      -- `Parser::declaration`: dispatch on `fun` / `var` / statement and
      -- synchronize after an error (the error is still returned).
      let step :=
        let (mFun, st1) := matchTs st [.funKw]
        if mFun then pstep f (.funDecl "function") st1
        else
          let (mVar, st2) := matchTs st1 [.varKw]
          if mVar then pstep f .varDecl st2
          else pstep f .stmt st2
      (match step with
       | (.ok v, st') => (.ok v, st')
       | (.error e1, st') => (.error e1, synchronize f st'))
    | .varDecl =>
      -- `Parser::var_declaration`.
      (match consume st .identifier "Expect variable name." with
       | (.ok name, st1) =>
         let (m, st2) := matchTs st1 [.equal]
         let initStep :=
           if m then
             match toExpr (pstep f .expression st2) with
             | (.ok e, st3) => (Except.ok (some e), st3)
             | (.error e1, st3) => (Except.error e1, st3)
           else (Except.ok none, st2)
         (match initStep with
          | (.ok init, st3) =>
            (match consume st3 .semicolon "Expect ',' after variable declaration" with
             | (.ok _, st4) => (.ok (.vStmt (Stmt.var name init)), st4)
             | (.error e1, st4) => (.error e1, st4))
          | (.error e1, st3) => (.error e1, st3))
       | (.error e1, st1) => (.error e1, st1))
    | .funDecl kind =>
      -- `Parser::fun_declaration` (lines 87-118).
      (match consume st .identifier ("Expect '" ++ kind ++ "' name.") with
       | (.ok name, st1) =>
         (match consume st1 .leftParen ("Expect '(' after '" ++ kind ++ "' name.") with
          | (.ok _, st2) =>
            let paramsStep :=
              if !(check st2 .rightParen) then
                match consume st2 .identifier "Expect parameter name" with
                | (.ok p, st3) => toToks (pstep f (.paramLoop [p]) st3)
                | (.error e1, st3) => (Except.error e1, st3)
              else (Except.ok [], st2)
            (match paramsStep with
             | (.ok params, st3) =>
               (match consume st3 .rightParen "Expect ')' after parameters" with
                | (.ok _, st4) =>
                  (match consume st4 .leftBrace ("Expect '\x7b' before '" ++ kind ++ "' body") with
                   | (.ok _, st5) =>
                     (match toStmts (pstep f .blockStmts st5) with
                      | (.ok body, st6) => (.ok (.vStmt (Stmt.function name params body)), st6)
                      | (.error e1, st6) => (.error e1, st6))
                   | (.error e1, st5) => (.error e1, st5))
                | (.error e1, st4) => (.error e1, st4))
             | (.error e1, st3) => (.error e1, st3))
          | (.error e1, st2) => (.error e1, st2))
       | (.error e1, st1) => (.error e1, st1))
    | .paramLoop acc =>
      -- The parameter comma loop of `fun_declaration`: at 255 parameters
      -- the overflow is reported (non-fatally) and the 256th parameter is
      -- NOT consumed.
      let (m, st1) := matchTs st [.comma]
      if m then
        if acc.length ≥ 255 then
          let (_, st2) := parseError st1 (peek st1) "Can't have more than 255 parameters"
          pstep f (.paramLoop acc) st2
        else
          match consume st1 .identifier "Expect parameter name" with
          | (.ok p, st2) => pstep f (.paramLoop (acc ++ [p])) st2
          | (.error e1, st2) => (.error e1, st2)
      else (.ok (.vToks acc), st1)
    | .stmt =>
      -- `Parser::statement`.
      let (mFor, st1) := matchTs st [.forKw]
      if mFor then pstep f .forStmt st1
      else
        let (mIf, st2) := matchTs st1 [.ifKw]
        if mIf then pstep f .ifStmt st2
        else
          let (mPrint, st3) := matchTs st2 [.printKw]
          if mPrint then pstep f .printStmt st3
          else
            let (mRet, st4) := matchTs st3 [.returnKw]
            if mRet then pstep f .returnStmt st4
            else
              let (mWhile, st5) := matchTs st4 [.whileKw]
              if mWhile then pstep f .whileStmt st5
              else
                let (mBreak, st6) := matchTs st5 [.breakKw]
                if mBreak then pstep f .breakStmt st6
                else
                  let (mBrace, st7) := matchTs st6 [.leftBrace]
                  if mBrace then
                    match toStmts (pstep f .blockStmts st7) with
                    | (.ok stmts, st8) => (.ok (.vStmt (Stmt.block stmts)), st8)
                    | (.error e1, st8) => (.error e1, st8)
                  else pstep f .exprStmt st7
    | .ifStmt =>
      -- `Parser::if_statement`.
      (match consume st .leftParen "Expect '(' after 'if'." with
       | (.ok _, st1) =>
         (match toExpr (pstep f .expression st1) with
          | (.ok cond, st2) =>
            (match consume st2 .rightParen "Expect ')' after 'if'." with
             | (.ok _, st3) =>
               (match toStmt (pstep f .stmt st3) with
                | (.ok thenBranch, st4) =>
                  let (mElse, st5) := matchTs st4 [.elseKw]
                  if mElse then
                    match toStmt (pstep f .stmt st5) with
                    | (.ok elseBranch, st6) =>
                      (.ok (.vStmt (Stmt.ifStmt cond thenBranch (some elseBranch))), st6)
                    | (.error e1, st6) => (.error e1, st6)
                  else (.ok (.vStmt (Stmt.ifStmt cond thenBranch none)), st5)
                | (.error e1, st4) => (.error e1, st4))
             | (.error e1, st3) => (.error e1, st3))
          | (.error e1, st2) => (.error e1, st2))
       | (.error e1, st1) => (.error e1, st1))
    | .printStmt =>
      -- `Parser::print_statement`.
      (match toExpr (pstep f .expression st) with
       | (.ok value, st1) =>
         (match consume st1 .semicolon "Expect ';' after value." with
          | (.ok _, st2) => (.ok (.vStmt (Stmt.print value)), st2)
          | (.error e1, st2) => (.error e1, st2))
       | (.error e1, st1) => (.error e1, st1))
    | .returnStmt =>
      -- `Parser::return_statement`.
      let keyword := previous st
      let valueStep :=
        if !(check st .semicolon) then
          match toExpr (pstep f .expression st) with
          | (.ok e, st1) => (Except.ok (some e), st1)
          | (.error e1, st1) => (Except.error e1, st1)
        else (Except.ok none, st)
      (match valueStep with
       | (.ok value, st1) =>
         (match consume st1 .semicolon "Expect ';' after return statement." with
          | (.ok _, st2) => (.ok (.vStmt (Stmt.returnStmt keyword value)), st2)
          | (.error e1, st2) => (.error e1, st2))
       | (.error e1, st1) => (.error e1, st1))
    | .whileStmt =>
      -- `Parser::while_statement`.
      (match consume st .leftParen "Expect '(' after 'while'." with
       | (.ok _, st1) =>
         (match toExpr (pstep f .expression st1) with
          | (.ok cond, st2) =>
            (match consume st2 .rightParen "Expect ')' after while condition." with
             | (.ok _, st3) =>
               (match toStmt (pstep f .stmt st3) with
                | (.ok body, st4) => (.ok (.vStmt (Stmt.whileStmt cond body)), st4)
                | (.error e1, st4) => (.error e1, st4))
             | (.error e1, st3) => (.error e1, st3))
          | (.error e1, st2) => (.error e1, st2))
       | (.error e1, st1) => (.error e1, st1))
    | .breakStmt =>
      -- `Parser::break_statement`.
      let token := previous st
      (match consume st .semicolon "Expect ';' after break statement." with
       | (.ok _, st1) => (.ok (.vStmt (Stmt.breakStmt token)), st1)
       | (.error e1, st1) => (.error e1, st1))
    | .forStmt =>
      -- `Parser::for_statement`, including the desugaring into
      -- `{ init; while (cond) { body; incr; } }`.
      (match consume st .leftParen "Expect '(' after 'for'." with
       | (.ok _, st1) =>
         let initStep :=
           let (mSemi, st2) := matchTs st1 [.semicolon]
           if mSemi then (Except.ok (Option.none (α := Stmt)), st2)
           else
             let (mVar, st3) := matchTs st2 [.varKw]
             if mVar then
               match toStmt (pstep f .varDecl st3) with
               | (.ok s, st4) => (Except.ok (some s), st4)
               | (.error e1, st4) => (Except.error e1, st4)
             else
               match toStmt (pstep f .exprStmt st3) with
               | (.ok s, st4) => (Except.ok (some s), st4)
               | (.error e1, st4) => (Except.error e1, st4)
         (match initStep with
          | (.ok init, st2) =>
            let condStep :=
              if check st2 .semicolon then (Except.ok (Option.none (α := Expr)), st2)
              else
                match toExpr (pstep f .expression st2) with
                | (.ok e, st3) => (Except.ok (some e), st3)
                | (.error e1, st3) => (Except.error e1, st3)
            (match condStep with
             | (.ok condOpt, st3) =>
               (match consume st3 .semicolon "Expect ';' after for loop condition." with
                | (.ok _, st4) =>
                  let incStep :=
                    if check st4 .rightParen then (Except.ok (Option.none (α := Expr)), st4)
                    else
                      match toExpr (pstep f .expression st4) with
                      | (.ok e, st5) => (Except.ok (some e), st5)
                      | (.error e1, st5) => (Except.error e1, st5)
                  (match incStep with
                   | (.ok incOpt, st5) =>
                     (match consume st5 .rightParen "Expect ')' after for loop." with
                      | (.ok _, st6) =>
                        (match toStmt (pstep f .stmt st6) with
                         | (.ok body0, st7) =>
                           let body1 :=
                             match incOpt with
                             | some inc => Stmt.block [body0, Stmt.expression inc]
                             | none => body0
                           let cond := condOpt.getD (Expr.literal (some (Object.bool true)))
                           let body2 := Stmt.whileStmt cond body1
                           let body3 :=
                             match init with
                             | some i => Stmt.block [i, body2]
                             | none => body2
                           (.ok (.vStmt body3), st7)
                         | (.error e1, st7) => (.error e1, st7))
                      | (.error e1, st6) => (.error e1, st6))
                   | (.error e1, st5) => (.error e1, st5))
                | (.error e1, st4) => (.error e1, st4))
             | (.error e1, st3) => (.error e1, st3))
          | (.error e1, st2) => (.error e1, st2))
       | (.error e1, st1) => (.error e1, st1))
    | .exprStmt =>
      -- `Parser::expression_statement`.
      (match toExpr (pstep f .expression st) with
       | (.ok e, st1) =>
         (match consume st1 .semicolon "Expect ';' after value." with
          | (.ok _, st2) => (.ok (.vStmt (Stmt.expression e)), st2)
          | (.error e1, st2) => (.error e1, st2))
       | (.error e1, st1) => (.error e1, st1))
    | .blockStmts =>
      -- `Parser::block`: declarations until the closing brace (an inner
      -- error propagates, after `declaration` has synchronized).
      pstep f (.blockLoop []) st
    | .blockLoop acc =>
      if !(check st .rightBrace) && !(isAtEnd st) then
        match toStmt (pstep f .decl st) with
        | (.ok s, st1) => pstep f (.blockLoop (acc ++ [s])) st1
        | (.error e1, st1) => (.error e1, st1)
      else
        (match consume st .rightBrace "Expect '\x7d' after block." with
         | (.ok _, st1) => (.ok (.vStmts acc), st1)
         | (.error e1, st1) => (.error e1, st1))
    | .expression =>
      -- `Parser::expression`.
      pstep f .assignment st
    | .assignment =>
      -- `Parser::assignment`: on `=` after a non-Variable target the error
      -- is reported but NOT thrown, and the left-hand side is returned
      -- unchanged.
      (match toExpr (pstep f .logicalOr st) with
       | (.ok expr, st1) =>
         let (m, st2) := matchTs st1 [.equal]
         if m then
           let equals := previous st2
           match toExpr (pstep f .assignment st2) with
           | (.ok value, st3) =>
             (match expr with
              | .variable name _ =>
                let (id, st4) := freshId st3
                (.ok (.vExpr (Expr.assign name value id)), st4)
              | _ =>
                let (_, st4) := parseError st3 equals "Invalid assignment  target."
                (.ok (.vExpr expr), st4))
           | (.error e1, st3) => (.error e1, st3)
         else (.ok (.vExpr expr), st2)
       | (.error e1, st1) => (.error e1, st1))
    | .logicalOr =>
      (match toExpr (pstep f .logicalAnd st) with
       | (.ok expr, st1) => pstep f (.orLoop expr) st1
       | (.error e1, st1) => (.error e1, st1))
    | .orLoop expr =>
      let (m, st1) := matchTs st [.orKw]
      if m then
        let op := previous st1
        match toExpr (pstep f .logicalAnd st1) with
        | (.ok right, st2) => pstep f (.orLoop (Expr.logical expr op right)) st2
        | (.error e1, st2) => (.error e1, st2)
      else (.ok (.vExpr expr), st1)
    | .logicalAnd =>
      (match toExpr (pstep f .equality st) with
       | (.ok expr, st1) => pstep f (.andLoop expr) st1
       | (.error e1, st1) => (.error e1, st1))
    | .andLoop expr =>
      let (m, st1) := matchTs st [.andKw]
      if m then
        let op := previous st1
        match toExpr (pstep f .equality st1) with
        | (.ok right, st2) => pstep f (.andLoop (Expr.logical expr op right)) st2
        | (.error e1, st2) => (.error e1, st2)
      else (.ok (.vExpr expr), st1)
    | .equality =>
      (match toExpr (pstep f .comparison st) with
       | (.ok expr, st1) => pstep f (.eqLoop expr) st1
       | (.error e1, st1) => (.error e1, st1))
    | .eqLoop expr =>
      let (m, st1) := matchTs st [.bangEqual, .equalEqual]
      if m then
        let op := previous st1
        match toExpr (pstep f .comparison st1) with
        | (.ok right, st2) => pstep f (.eqLoop (Expr.binary expr op right)) st2
        | (.error e1, st2) => (.error e1, st2)
      else (.ok (.vExpr expr), st1)
    | .comparison =>
      (match toExpr (pstep f .term st) with
       | (.ok expr, st1) => pstep f (.compLoop expr) st1
       | (.error e1, st1) => (.error e1, st1))
    | .compLoop expr =>
      let (m, st1) := matchTs st [.greater, .greaterEqual, .less, .lessEqual]
      if m then
        let op := previous st1
        match toExpr (pstep f .term st1) with
        | (.ok right, st2) => pstep f (.compLoop (Expr.binary expr op right)) st2
        | (.error e1, st2) => (.error e1, st2)
      else (.ok (.vExpr expr), st1)
    | .term =>
      (match toExpr (pstep f .factor st) with
       | (.ok expr, st1) => pstep f (.termLoop expr) st1
       | (.error e1, st1) => (.error e1, st1))
    | .termLoop expr =>
      let (m, st1) := matchTs st [.minus, .plus]
      if m then
        let op := previous st1
        match toExpr (pstep f .factor st1) with
        | (.ok right, st2) => pstep f (.termLoop (Expr.binary expr op right)) st2
        | (.error e1, st2) => (.error e1, st2)
      else (.ok (.vExpr expr), st1)
    | .factor =>
      (match toExpr (pstep f .unary st) with
       | (.ok expr, st1) => pstep f (.factorLoop expr) st1
       | (.error e1, st1) => (.error e1, st1))
    | .factorLoop expr =>
      let (m, st1) := matchTs st [.slash, .star]
      if m then
        let op := previous st1
        match toExpr (pstep f .unary st1) with
        | (.ok right, st2) => pstep f (.factorLoop (Expr.binary expr op right)) st2
        | (.error e1, st2) => (.error e1, st2)
      else (.ok (.vExpr expr), st1)
    | .unary =>
      -- `Parser::unary`.
      let (m, st1) := matchTs st [.bang, .minus]
      if m then
        let op := previous st1
        match toExpr (pstep f .unary st1) with
        | (.ok right, st2) => (.ok (.vExpr (Expr.unary op right)), st2)
        | (.error e1, st2) => (.error e1, st2)
      else pstep f .callRule st1
    | .callRule =>
      -- `Parser::call`.
      (match toExpr (pstep f .primary st) with
       | (.ok expr, st1) => pstep f (.callLoop expr) st1
       | (.error e1, st1) => (.error e1, st1))
    | .callLoop expr =>
      let (m, st1) := matchTs st [.leftParen]
      if m then
        match toExpr (pstep f (.finishCall expr) st1) with
        | (.ok e2, st2) => pstep f (.callLoop e2) st2
        | (.error e1, st2) => (.error e1, st2)
      else (.ok (.vExpr expr), st1)
    | .finishCall callee =>
      -- `Parser::finish_call` (lines 435-455).
      let argsStep :=
        if !(check st .rightParen) then
          match toExpr (pstep f .expression st) with
          | (.ok a1, st1) => toExprs (pstep f (.argLoop [a1]) st1)
          | (.error e1, st1) => (Except.error e1, st1)
        else (Except.ok [], st)
      (match argsStep with
       | (.ok args, st1) =>
         (match consume st1 .rightParen "Expect ')' after arguments" with
          | (.ok paren, st2) => (.ok (.vExpr (Expr.call callee paren args)), st2)
          | (.error e1, st2) => (.error e1, st2))
       | (.error e1, st1) => (.error e1, st1))
    | .argLoop acc =>
      -- The argument comma loop of `finish_call`: at 255 arguments the
      -- overflow is reported (non-fatally) and the 256th argument
      -- expression is NOT parsed.
      let (m, st1) := matchTs st [.comma]
      if m then
        if acc.length ≥ 255 then
          let (_, st2) := parseError st1 (peek st1) "Can't have more than 255 arguments"
          pstep f (.argLoop acc) st2
        else
          match toExpr (pstep f .expression st1) with
          | (.ok a, st2) => pstep f (.argLoop (acc ++ [a])) st2
          | (.error e1, st2) => (.error e1, st2)
      else (.ok (.vExprs acc), st1)
    | .primary =>
      -- `Parser::primary`.
      let (mFalse, st1) := matchTs st [.falseKw]
      if mFalse then (.ok (.vExpr (Expr.literal (some (Object.bool false)))), st1)
      else
        let (mTrue, st2) := matchTs st1 [.trueKw]
        if mTrue then (.ok (.vExpr (Expr.literal (some (Object.bool true)))), st2)
        else
          let (mNil, st3) := matchTs st2 [.nilKw]
          if mNil then (.ok (.vExpr (Expr.literal (some Object.nil))), st3)
          else
            let (mLit, st4) := matchTs st3 [.number, .stringLiteral]
            if mLit then
              let v :=
                match (previous st4).literal with
                | some l => litToObject l
                | none => Object.nil
              (.ok (.vExpr (Expr.literal (some v))), st4)
            else
              let (mIdent, st5) := matchTs st4 [.identifier]
              if mIdent then
                let name := previous st5
                let (id, st6) := freshId st5
                (.ok (.vExpr (Expr.variable name id)), st6)
              else
                let (mParen, st6) := matchTs st5 [.leftParen]
                if mParen then
                  match toExpr (pstep f .expression st6) with
                  | (.ok e, st7) =>
                    (match consume st7 .rightParen "Expect `)` after expression" with
                     | (.ok _, st8) => (.ok (.vExpr (Expr.grouping e)), st8)
                     | (.error e1, st8) => (.error e1, st8))
                  | (.error e1, st7) => (.error e1, st7)
                else
                  let (e, st7) := parseError st6 (peek st6) "Expression expected"
                  (.error e, st7)

/-- `Parser::declaration`. -/
def declaration (f : Nat) (st : PState) : Except LoxResult Stmt × PState :=
  toStmt (pstep f .decl st)

/-- `Parser::fun_declaration`. -/
def funDeclaration (f : Nat) (st : PState) (kind : String) : Except LoxResult Stmt × PState :=
  toStmt (pstep f (.funDecl kind) st)

/-- `Parser::expression`. -/
def expression (f : Nat) (st : PState) : Except LoxResult Expr × PState :=
  toExpr (pstep f .expression st)

/-- `Parser::finish_call` on an already parsed callee, after the opening
parenthesis has been consumed. -/
def finishCall (f : Nat) (callee : Expr) (st : PState) : Except LoxResult Expr × PState :=
  toExpr (pstep f (.finishCall callee) st)

/-- The loop of `Parser::parse`: collect the statements of successful
declarations, drop the failed ones, continue to `Eof`. -/
def parseLoop : Nat → List Stmt → PState → List Stmt × PState
  | 0, acc, st => (acc, st)
  | f + 1, acc, st =>
    if isAtEnd st then (acc, st)
    else
      match toStmt (pstep f .decl st) with
      | (.ok s, st1) => parseLoop f (acc ++ [s]) st1
      | (.error _, st1) => parseLoop f acc st1

/-- `Parser::parse`. -/
def parse (fuel : Nat) (st : PState) : List Stmt × PState :=
  parseLoop fuel [] st

/-- `Parser::new`: fresh state over a token stream. -/
def initP (tokens : List Token) : PState :=
  { done := [], rest := tokens, hadError := false, errors := [], nextId := 0 }

end Parser

/- ------------------------------------------------------------------
   Concrete fixtures used by the theorems below: tokens, programs and
   small decoding helpers.
   ------------------------------------------------------------------ -/

/-- Does an `Object` carry a number? -/
def isNumberObj : Object → Bool
  | .number _ => true
  | _ => false

/-- The parse-error message of a thrown (`Err`) parser result, if any. -/
def thrownMessage {α : Type} (r : Except LoxResult α × Parser.PState) : Option String :=
  match r.1 with
  | .error (.parseError _ m) => some m
  | _ => none

def tokA : Token := ⟨.identifier, "a", some (.identifier "a"), 1, 1⟩

def tokF : Token := ⟨.identifier, "f", some (.identifier "f"), 1, 1⟩

def tokG : Token := ⟨.identifier, "g", some (.identifier "g"), 1, 1⟩

def eqeqTok : Token := ⟨.equalEqual, "==", none, 1, 1⟩

def minusTok : Token := ⟨.minus, "-", none, 1, 1⟩

def brkTok : Token := ⟨.breakKw, "break", none, 1, 1⟩

def rparenTok1 : Token := ⟨.rightParen, ")", none, 1, 1⟩

/-- The program `print nil == false;`. -/
def nilEqFalseProg : List Stmt :=
  [Stmt.print (Expr.binary (Expr.literal (some Object.nil)) eqeqTok
    (Expr.literal (some (Object.bool false))))]

/-- The program `var a = a;` at global scope (the variable node has id 0). -/
def gProg : List Stmt := [Stmt.var tokA (some (Expr.variable tokA 0))]

/-- The program `{ var a = a; }` — the same declaration inside a block
(non-global scope; the variable node has id 1). -/
def ngProg : List Stmt := [Stmt.block [Stmt.var tokA (some (Expr.variable tokA 1))]]

/-- The program
`{ var a = "outer"; { var a = "inner"; print a; } }` — the printed `a` is
bound in both enclosing scopes; lexical scoping must print `inner`.  The
printed variable node has id 5. -/
def shadProg : List Stmt :=
  [Stmt.block
    [Stmt.var tokA (some (Expr.literal (some (Object.str "outer")))),
     Stmt.block
       [Stmt.var tokA (some (Expr.literal (some (Object.str "inner")))),
        Stmt.print (Expr.variable tokA 5)]]]

/-- A resolver state whose scope stack holds `a` in both the innermost
scope (depth 0) and the enclosing scope (depth 1); the stack is stored
innermost-first. -/
def rsShadow : RState :=
  { scopes := [[("a", true)], [("a", true)]], inLoop := false, hadError := false,
    currentFunction := .none, locals := [], errors := [] }

/-- The program `while (true) { fun f() { break; } }`: the `break` sits in
a function body that contains no loop. -/
def c5CtrProg : List Stmt :=
  [Stmt.whileStmt (Expr.literal (some (Object.bool true)))
    (Stmt.block [Stmt.function tokF [] [Stmt.breakStmt brkTok]])]

/-- The program
`var g; while (true) { fun f() { break; } g = f; break; } g();`:
the function containing `break` is smuggled out of the loop and called at
top level, outside every loop.  Node ids: the read of `f` is 11, the
assignment to `g` is 10, the call's callee read of `g` is 12. -/
def escProg : List Stmt :=
  [Stmt.var tokG none,
   Stmt.whileStmt (Expr.literal (some (Object.bool true)))
     (Stmt.block
       [Stmt.function tokF [] [Stmt.breakStmt brkTok],
        Stmt.expression (Expr.assign tokG (Expr.variable tokF 11) 10),
        Stmt.breakStmt brkTok]),
   Stmt.expression (Expr.call (Expr.variable tokG 12) rparenTok1 [])]

def identTok (s : String) : Token := ⟨.identifier, s, some (.identifier s), 1, 0⟩

def lparenTok : Token := ⟨.leftParen, "(", none, 1, 0⟩

def rparenTok : Token := ⟨.rightParen, ")", none, 1, 0⟩

def commaTok : Token := ⟨.comma, ",", none, 1, 0⟩

def semiTok : Token := ⟨.semicolon, ";", none, 1, 0⟩

def lbraceTok : Token := ⟨.leftBrace, "\x7b", none, 1, 0⟩

def rbraceTok : Token := ⟨.rightBrace, "\x7d", none, 1, 0⟩

def eofTok : Token := ⟨.eof, "", none, 1, 0⟩

def funKwTok : Token := ⟨.funKw, "fun", none, 1, 0⟩

/-- `n` comma-separated identifier tokens `a, a, …, a`. -/
def argToks : Nat → List Token
  | 0 => []
  | 1 => [identTok "a"]
  | n + 2 => identTok "a" :: commaTok :: argToks (n + 1)

/-- The token stream of the statement `f(a, a, …, a);` with `n` arguments. -/
def callToks (n : Nat) : List Token :=
  [identTok "f", lparenTok] ++ argToks n ++ [rparenTok, semiTok, eofTok]

/-- The token stream of the declaration `fun g(a, a, …, a) {}` with `n`
parameters. -/
def funToks (n : Nat) : List Token :=
  [funKwTok, identTok "g", lparenTok] ++ argToks n ++ [rparenTok, lbraceTok, rbraceTok, eofTok]

/-- A class with a two-parameter `init` method, and one without methods. -/
def fInit : LoxFunction :=
  .mk ⟨.identifier, "init", some (.identifier "init"), 1, 1⟩ true
    [identTok "x", identTok "y"] [] 0

def classWithInit : LoxClass := .mk "A" [("init", Object.func fInit)]

def classNoInit : LoxClass := .mk "B" []

theorem matchComment_one (d : Nat) (c : Char) : matchComment d [c] = none := by
  rw [matchComment.eq_def]
  split <;> simp_all [matchComment]

theorem matchComment_skip (d : Nat) (c1 c2 : Char) (l : List Char)
    (h1 : ¬(c1 = '*' ∧ c2 = '/')) (h2 : ¬(c1 = '/' ∧ c2 = '*')) :
    matchComment d (c1 :: c2 :: l) = matchComment d (c2 :: l) := by
  rw [matchComment.eq_def]
  split
  · simp_all
  · rename_i heq; simp at heq; simp_all
  · rename_i heq; simp at heq; simp_all
  · rename_i heq
    injection heq with hh hr
    subst hh; subst hr
    rfl

theorem matchComment_skip_one (d : Nat) (c : Char) (l : List Char)
    (h1 : ∀ r2 : List Char, c = '*' → l = '/' :: r2 → False)
    (h2 : ∀ r2 : List Char, c = '/' → l = '*' :: r2 → False) :
    matchComment d (c :: l) = matchComment d l := by
  rcases l with _ | ⟨c2, r2⟩
  · rw [matchComment_one, matchComment]
  · refine matchComment_skip d c c2 r2 ?_ ?_
    · rintro ⟨hc, hc2⟩; exact h1 r2 hc (by rw [hc2])
    · rintro ⟨hc, hc2⟩; exact h2 r2 hc (by rw [hc2])

theorem matchComment_len : ∀ (d : Nat) (l r : List Char), matchComment d l = some r → r.length ≤ l.length := by
  intro d l
  induction d, l using matchComment.induct with
  | case1 x => intro r h; simp [matchComment] at h
  | case2 rest => intro r h; simp [matchComment] at h; subst h; simp; omega
  | case3 d rest hne ih =>
    intro r h
    rw [matchComment] at h
    simp [hne] at h
    have := ih r h
    simp; omega
  | case4 d rest ih =>
    intro r h
    rw [matchComment] at h
    have := ih r h
    simp; omega
  | case5 d head rest h1 h2 ih =>
    intro r h
    rw [matchComment_skip_one d head rest h1 h2] at h
    have := ih r h
    simp; omega

theorem matchComment_add : ∀ (n : Nat) (l : List Char), l.length ≤ n → ∀ d : Nat,
    matchComment (d + 1) l
      = (matchComment 1 l).bind (fun r => if d = 0 then some r else matchComment d r) := by
  intro n
  induction n with
  | zero =>
    intro l hl d
    have : l = [] := List.eq_nil_of_length_eq_zero (Nat.le_zero.mp hl)
    subst this
    simp [matchComment]
  | succ n ih =>
    intro l hl d
    rcases l with _ | ⟨c1, _ | ⟨c2, rest⟩⟩
    · simp [matchComment]
    · simp [matchComment_one]
    · by_cases hA : c1 = '*' ∧ c2 = '/'
      · obtain ⟨ha1, ha2⟩ := hA; subst ha1; subst ha2
        rw [matchComment, matchComment]
        cases d with
        | zero => simp
        | succ k => simp
      · by_cases hB : c1 = '/' ∧ c2 = '*'
        · obtain ⟨hb1, hb2⟩ := hB; subst hb1; subst hb2
          rw [matchComment, matchComment]
          have hr : rest.length ≤ n := by simp at hl; omega
          have hx1 := ih rest hr (d + 1)
          have hx2 := ih rest hr 1
          simp only [Nat.add_eq_zero, and_false, one_ne_zero, if_false] at hx1 hx2
          rw [show d + 1 + 1 = d + 2 from rfl] at hx1
          rw [hx1, hx2]
          cases h3 : matchComment 1 rest with
          | none => simp
          | some r =>
            simp only [Option.some_bind]
            have hrlen : r.length ≤ n := le_trans (matchComment_len 1 rest r h3) hr
            exact ih r hrlen d
        · rw [matchComment_skip _ _ _ _ hA hB, matchComment_skip _ _ _ _ hA hB]
          exact ih (c2 :: rest) (by simp at hl ⊢; omega) d

theorem scanComment_star (f : Nat) (rest : List Char) (line col : Nat)
    (h : ∀ r2 : List Char, rest = '/' :: r2 → False) :
    scanComment (f + 1) ('*' :: rest) line col = scanComment f rest line (col + 1) := by
  rcases rest with _ | ⟨c2, r2⟩
  · rfl
  · have hc : c2 ≠ '/' := fun hcc => h r2 (by rw [hcc])
    rw [scanComment.eq_def]
    split
    · rename_i heq; exact absurd heq (by omega)
    · rename_i heq; simp at heq
    · rename_i heq1 heq2
      injection heq2 with hh hrest
      subst hrest
      have hf := Nat.succ_injective heq1
      subst hf
      split
      · rename_i heq3; injection heq3 with hc2 _; exact absurd hc2 hc
      · rfl
    · rename_i heq1 heq2; simp at heq2
    · rename_i heq1 heq2; simp at heq2
    · rename_i hstar hslash hnl heq1 heq2
      injection heq2 with hh hrest
      exact absurd hh.symm hstar

theorem scanComment_slash (f : Nat) (rest : List Char) (line col : Nat)
    (h : ∀ r2 : List Char, rest = '*' :: r2 → False) :
    scanComment (f + 1) ('/' :: rest) line col = scanComment f rest line (col + 1) := by
  rcases rest with _ | ⟨c2, r2⟩
  · rfl
  · have hc : c2 ≠ '*' := fun hcc => h r2 (by rw [hcc])
    rw [scanComment.eq_def]
    split
    · rename_i heq; exact absurd heq (by omega)
    · rename_i heq; simp at heq
    · rename_i heq1 heq2; simp at heq2
    · rename_i heq1 heq2
      injection heq2 with hh hrest
      subst hrest
      have hf := Nat.succ_injective heq1
      subst hf
      split
      · rename_i heq3; injection heq3 with hc2 _; exact absurd hc2 hc
      · rfl
    · rename_i heq1 heq2; simp at heq2
    · rename_i hstar hslash hnl heq1 heq2
      injection heq2 with hh hrest
      exact absurd hh.symm hslash

theorem scanComment_other (f : Nat) (c : Char) (rest : List Char) (line col : Nat)
    (h1 : c ≠ '*') (h2 : c ≠ '/') (h3 : c ≠ '\n') :
    scanComment (f + 1) (c :: rest) line col = scanComment f rest line (col + 1) := by
  rw [scanComment.eq_def]
  split
  · rename_i heq; exact absurd heq (by omega)
  · rename_i heq; simp at heq
  · rename_i heq1 heq2
    injection heq2 with hh hrest
    exact absurd hh h1
  · rename_i heq1 heq2
    injection heq2 with hh hrest
    exact absurd hh h2
  · rename_i heq1 heq2
    injection heq2 with hh hrest
    exact absurd hh h3
  · rename_i hstar hslash hnl heq1 heq2
    injection heq2 with hh hrest
    subst hrest
    have hf := Nat.succ_injective heq1
    subst hf
    rfl

theorem scanComment_correct : ∀ (f : Nat) (cs : List Char) (line col : Nat),
    cs.length < f → scanAgrees f cs line col := by
  intro f cs line col
  induction f, cs, line, col using scanComment.induct with
  | case1 l line col => intro h; exact absurd h (Nat.not_lt_zero _)
  | case2 n line col =>
    intro h
    unfold scanAgrees
    simp only [matchComment]
    exact ⟨line, col, rfl⟩
  | case3 f line col rest2 =>
    intro h
    unfold scanAgrees
    rw [matchComment]
    simp only [if_pos rfl]
    exact ⟨line, col + 2, rfl⟩
  | case4 f rest line col hne ih =>
    intro h
    have hlen : rest.length < f := by simp at h; omega
    have ih' := ih hlen
    unfold scanAgrees at ih' ⊢
    have hmc : matchComment 1 ('*' :: rest) = matchComment 1 rest :=
      matchComment_skip_one 1 '*' rest (fun r2 _ heq => hne r2 heq) (fun _ hch _ => by simp at hch)
    have hsc := scanComment_star f rest line col hne
    simp only [hmc, hsc]
    exact ih'
  | case5 f line col rest2 r l2 c2 hok ih1 ih2 =>
    intro h
    have hlen : rest2.length < f := by simp at h; omega
    have ih1' := ih1 hlen
    unfold scanAgrees at ih1'
    cases hmc : matchComment 1 rest2 with
    | none =>
      rw [hmc] at ih1'
      obtain ⟨l2', c2', herr'⟩ := ih1'
      rw [hok] at herr'
      simp at herr'
    | some r' =>
      rw [hmc] at ih1'
      obtain ⟨l2', c2', hok'⟩ := ih1'
      rw [hok] at hok'
      have hinj := hok'
      simp only [Except.ok.injEq, Prod.mk.injEq] at hinj
      obtain ⟨hr', hl2', hc2'⟩ := hinj
      subst hr'; subst hl2'; subst hc2'
      have hrlen : r.length < f := lt_of_le_of_lt (matchComment_len 1 rest2 r hmc) hlen
      have ih2' := ih2 hrlen
      unfold scanAgrees at ih2' ⊢
      have hmc2 : matchComment 1 ('/' :: '*' :: rest2) = matchComment 1 r := by
        rw [matchComment]
        have := matchComment_add rest2.length rest2 (le_refl _) 1
        simp only [one_ne_zero, if_false] at this
        rw [show (1 : Nat) + 1 = 2 from rfl] at this
        rw [this, hmc]
        rfl
      have hsc2 : scanComment (f + 1) ('/' :: '*' :: rest2) line col = scanComment f r l2 c2 := by
        rw [scanComment, hok]
      simp only [hmc2, hsc2]
      exact ih2'
  | case6 f line col rest2 e herr ih1 =>
    intro h
    have hlen : rest2.length < f := by simp at h; omega
    have ih1' := ih1 hlen
    unfold scanAgrees at ih1'
    cases hmc : matchComment 1 rest2 with
    | some r' =>
      rw [hmc] at ih1'
      obtain ⟨l2', c2', hok'⟩ := ih1'
      rw [herr] at hok'
      simp at hok'
    | none =>
      rw [hmc] at ih1'
      obtain ⟨l2', c2', herr'⟩ := ih1'
      unfold scanAgrees
      have hmc2 : matchComment 1 ('/' :: '*' :: rest2) = none := by
        rw [matchComment]
        have := matchComment_add rest2.length rest2 (le_refl _) 1
        simp only [one_ne_zero, if_false] at this
        rw [show (1 : Nat) + 1 = 2 from rfl] at this
        rw [this, hmc]
        rfl
      rw [hmc2]
      refine ⟨l2', c2', ?_⟩
      rw [scanComment, herr]
      rw [herr] at herr'
      injection herr' with he
      rw [he]
  | case7 f rest line col hne ih =>
    intro h
    have hlen : rest.length < f := by simp at h; omega
    have ih' := ih hlen
    unfold scanAgrees at ih' ⊢
    have hmc : matchComment 1 ('/' :: rest) = matchComment 1 rest :=
      matchComment_skip_one 1 '/' rest (fun _ hch _ => by simp at hch) (fun r2 _ heq => hne r2 heq)
    have hsc := scanComment_slash f rest line col hne
    simp only [hmc, hsc]
    exact ih'
  | case8 f rest line col ih =>
    intro h
    have hlen : rest.length < f := by simp at h; omega
    have ih' := ih hlen
    unfold scanAgrees at ih' ⊢
    have hmc : matchComment 1 ('\n' :: rest) = matchComment 1 rest :=
      matchComment_skip_one 1 '\n' rest (fun _ hch _ => by simp at hch) (fun _ hch _ => by simp at hch)
    have hsc : scanComment (f + 1) ('\n' :: rest) line col = scanComment f rest (line + 1) (col + 1) := rfl
    simp only [hmc, hsc]
    exact ih'
  | case9 f head rest line col hstar hslash hnl ih =>
    intro h
    have hlen : rest.length < f := by simp at h; omega
    have ih' := ih hlen
    unfold scanAgrees at ih' ⊢
    have hmc : matchComment 1 (head :: rest) = matchComment 1 rest :=
      matchComment_skip_one 1 head rest (fun _ hch _ => hstar hch) (fun _ hch _ => hslash hch)
    have hsc := scanComment_other f head rest line col
      (fun hch => hstar hch) (fun hch => hslash hch) (fun hch => hnl hch)
    simp only [hmc, hsc]
    exact ih'

/- ------------------------------------------------------------------
   Claim theorems.
   ------------------------------------------------------------------ -/

/-- Claim C1 (code bug).  The claim states that `==`/`!=` on operands of
different kinds never raise an error, that `nil == v` is false for every
non-nil `v`, and that `print nil == false;` prints `false`.  On the code,
the `(Nil, _)` arm of `visit_binary_expr` matches `TokenType::Equal` — the
`=` assignment token, which the parser never attaches to a Binary node —
instead of `TokenType::EqualEqual`, so `nil == false` falls through to
`IllegalOperation` and raises the runtime error "Illegal operation"; the
misplaced `Equal` arm (third conjunct) shows the intended `false` result.
`print nil == false;` therefore aborts with that error and prints
nothing (last two conjuncts); `1 == "a"` errors likewise (fourth). -/
theorem c1_nil_eq_false_is_runtime_error :
    evalBinaryOp .equalEqual Object.nil (Object.bool false) = Object.illegalOperation
    ∧ visitBinaryResult eqeqTok Object.nil (Object.bool false)
        = .error (.runtimeError eqeqTok "Illegal operation")
    ∧ evalBinaryOp .equal Object.nil (Object.bool false) = Object.bool false
    ∧ evalBinaryOp .equalEqual (Object.number 1) (Object.str "a") = Object.illegalOperation
    ∧ (interpret 100 (initState []) nilEqFalseProg).1
        = .error (.runtimeError eqeqTok "Illegal operation")
    ∧ (interpret 100 (initState []) nilEqFalseProg).2.output = [] :=
  ⟨rfl, rfl, rfl, rfl, rfl, rfl⟩

/-- Claim C2 (code bug).  `resolve_local` iterates the scope stack
innermost-first but has no early return, so every matching scope
overwrites the side-table entry and the final recorded depth is that of
the OUTERMOST scope containing the name — the code's own comment ("If the
variable was found in the current scope, return pass 0") describes the
intended early return.  With `a` bound at depths 0 and 1, the entry ends
at 1 (first conjunct) although the innermost scope holds the name (second
conjunct).  Consequently, in `{ var a = "outer"; { var a = "inner";
print a; } }` the printed read resolves to depth 1 and evaluation prints
`outer`, not the shadowing `inner` (remaining conjuncts). -/
theorem c2_resolve_local_records_outermost :
    (resolveLocal rsShadow 7 tokA).locals.lookup 7 = some 1
    ∧ ((rsShadow.scopes.headD []).lookup "a").isSome = true
    ∧ (resolveProgram 100 shadProg).1 = .ok ()
    ∧ (resolveProgram 100 shadProg).2.hadError = false
    ∧ (resolveProgram 100 shadProg).2.locals.lookup 5 = some 1
    ∧ (interpret 100 (initState (resolveProgram 100 shadProg).2.locals) shadProg).2.output
        = ["outer"] :=
  ⟨rfl, rfl, rfl, rfl, rfl, rfl⟩

/-- Claim C3, counterexample.  The claim states that at global scope
`var a = a;` is accepted and the initializer's read of `a` "falls back to
the global environment without error", leaving `a` = Nil.  The resolver
does accept it (first two conjuncts), but the global fallback is
`Environment::get` on a globals map that does not yet contain `a`, which
raises the runtime error "Undefined variable 'a'" instead of yielding
Nil. -/
theorem c3_global_var_own_init_errors :
    (resolveProgram 100 gProg).1 = .ok ()
    ∧ (resolveProgram 100 gProg).2.hadError = false
    ∧ (interpret 100 (initState []) gProg).1
        = .error (.runtimeError tokA "Undefined variable 'a'") :=
  ⟨rfl, rfl, rfl⟩

/-- Claim C3 (corrected).  `var a = a;` in a non-global scope is rejected
by the resolver with "Can't read local variable its own initializer"
(first conjunct).  At global scope the resolver accepts it (second and
third conjuncts), but evaluating the initializer looks `a` up in the
global environment, which — `a` not being defined yet — raises the
runtime error "Undefined variable 'a'" (fourth); the statement aborts and
`a` is NOT defined afterwards, in particular it is not Nil (fifth: the
globals map still has no entry for `a`). -/
theorem c3_var_own_init :
    (resolveProgram 100 ngProg).1
        = .error (.runtimeError tokA "Can't read local variable its own initializer")
    ∧ (resolveProgram 100 gProg).1 = .ok ()
    ∧ (resolveProgram 100 gProg).2.hadError = false
    ∧ (interpret 100 (initState []) gProg).1
        = .error (.runtimeError tokA "Undefined variable 'a'")
    ∧ (((interpret 100 (initState []) gProg).2.envs.headD default).values.lookup "a")
        = none :=
  ⟨rfl, rfl, rfl, rfl, rfl⟩

/-- Claim C4, counterexample.  The claim states that unary `-` on a
non-Number produces the runtime error "Operand must be a number" and
never completes normally; the code instead prints a diagnostic and
returns `Ok(Object::Nil)` — a normal completion. -/
theorem c4_unary_minus_on_bool_completes :
    visitUnaryResult minusTok (Object.bool true) = .ok Object.nil := rfl

/-- Claim C4 (corrected).  Unary `-` on a Number yields the numeric
negation; on any non-Number operand `visit_unary_expr` prints "Negation
operation is not allowed on '…'" to stdout and completes normally with
value Nil — no runtime error is produced. -/
theorem c4_unary_minus (op : Token) (hop : op.ttype = .minus) :
    (∀ n : Rat, visitUnaryResult op (Object.number n) = .ok (Object.number (-n)))
    ∧ (∀ v : Object, isNumberObj v = false → visitUnaryResult op v = .ok Object.nil) := by
  constructor
  · intro n
    simp [visitUnaryResult, hop]
  · intro v hv
    cases v <;> simp_all [visitUnaryResult, hop, isNumberObj]

/-- Witness for C4 at `n = 3` and `v = true`. -/
theorem c4_unary_minus_witness :
    visitUnaryResult minusTok (Object.number 3) = .ok (Object.number (-3))
    ∧ visitUnaryResult minusTok (Object.bool true) = .ok Object.nil :=
  ⟨(c4_unary_minus minusTok rfl).1 3, (c4_unary_minus minusTok rfl).2 (Object.bool true) rfl⟩

/-- Claim C5, counterexample.  The claim states that the resolver reports
an error for every `break` not inside an enclosing loop body, including a
`break` in a function body declared inside a loop.  For
`while (true) { fun f() { break; } }` the resolver reports nothing: the
loop flag is not reset when resolving a function body. -/
theorem c5_break_in_function_in_loop_accepted :
    (resolveProgram 100 c5CtrProg).2.hadError = false
    ∧ (resolveProgram 100 c5CtrProg).2.errors = []
    ∧ (resolveProgram 100 c5CtrProg).1 = .ok () :=
  ⟨rfl, rfl, rfl⟩

/-- Claim C5 (corrected).  The resolver reports "break statements are not
allowed here" for a `break` exactly when the threaded `in_loop` flag is
false at that point (first two conjunct groups); `while` sets the flag
around its condition and body (fourth group); but `resolve_function` does
not reset it, so a `break` directly inside a function declared inside a
loop is accepted (third group and the `c5CtrProg` facts).  Consequently a
`Break` signal CAN escape all loops at runtime: in `escProg` the function
`f` containing `break` is assigned to the global `g` inside the loop and
called after it, and `interpret` returns the bare `Break` signal (final
conjuncts). -/
theorem c5_break_resolution :
    (∀ (rs : RState) (tok : Token), rs.inLoop = false →
      (resolveStmt 1 rs (Stmt.breakStmt tok)).2.hadError = true
      ∧ (resolveStmt 1 rs (Stmt.breakStmt tok)).2.errors
          = rs.errors ++ ["break statements are not allowed here"])
    ∧ (∀ (rs : RState) (tok : Token), rs.inLoop = true →
        (resolveStmt 1 rs (Stmt.breakStmt tok)).2 = rs)
    ∧ (∀ (cf : FunctionType) (locals : List (Nat × Nat)) (errors : List String)
         (fname tok : Token),
        (resolveStmt 5 ⟨[], true, false, cf, locals, errors⟩
          (Stmt.function fname [] [Stmt.breakStmt tok])).2.hadError = false)
    ∧ (∀ (cf : FunctionType) (locals : List (Nat × Nat)) (errors : List String)
         (tok : Token),
        (resolveStmt 3 ⟨[], false, false, cf, locals, errors⟩
          (Stmt.whileStmt (Expr.literal (some (Object.bool true)))
            (Stmt.breakStmt tok))).2.hadError = false)
    ∧ (resolveProgram 100 escProg).1 = .ok ()
    ∧ (resolveProgram 100 escProg).2.hadError = false
    ∧ (interpret 1000 (initState (resolveProgram 100 escProg).2.locals) escProg).1
        = .error .brk := by
  refine ⟨?_, ?_, ?_, ?_, rfl, rfl, rfl⟩
  · intro rs tok h
    constructor <;> simp [resolveStmt, resolveErr, h]
  · intro rs tok h
    simp [resolveStmt, resolveErr, h]
  · intro cf locals errors fname tok
    rfl
  · intro cf locals errors tok
    rfl

/-- Witness for C5 at concrete resolver states. -/
theorem c5_break_resolution_witness :
    (resolveStmt 1 initR (Stmt.breakStmt brkTok)).2.hadError = true
    ∧ (resolveStmt 1 { initR with inLoop := true } (Stmt.breakStmt brkTok)).2
        = { initR with inLoop := true }
    ∧ (resolveStmt 5 ⟨[], true, false, .none, [], []⟩
        (Stmt.function tokF [] [Stmt.breakStmt brkTok])).2.hadError = false :=
  ⟨(c5_break_resolution.1 initR brkTok rfl).1,
   c5_break_resolution.2.1 { initR with inLoop := true } brkTok rfl,
   c5_break_resolution.2.2.1 .none [] [] tokF brkTok⟩

/-- Claim C6 (confirmed).  Binary `+` on two Numbers is the numeric sum,
on two Strings their concatenation, and on a Number and a String in
either order the concatenation using the number's display form; binary
`*` of a Number and a String (either order) repeats the string, the count
being the number cast with `as usize` (truncation, clamped at 0). -/
theorem c6_plus_star :
    (∀ a b : Rat, evalBinaryOp .plus (Object.number a) (Object.number b)
        = Object.number (a + b))
    ∧ (∀ s t : String, evalBinaryOp .plus (Object.str s) (Object.str t)
        = Object.str (s ++ t))
    ∧ (∀ (a : Rat) (s : String), evalBinaryOp .plus (Object.number a) (Object.str s)
        = Object.str (fmtNum a ++ s))
    ∧ (∀ (s : String) (a : Rat), evalBinaryOp .plus (Object.str s) (Object.number a)
        = Object.str (s ++ fmtNum a))
    ∧ (∀ (a : Rat) (s : String), evalBinaryOp .star (Object.number a) (Object.str s)
        = Object.str (strRepeat s (ratToUsize a)))
    ∧ (∀ (s : String) (a : Rat), evalBinaryOp .star (Object.str s) (Object.number a)
        = Object.str (strRepeat s (ratToUsize a))) :=
  ⟨fun _ _ => rfl, fun _ _ => rfl, fun _ _ => rfl, fun _ _ => rfl,
   fun _ _ => rfl, fun _ _ => rfl⟩

/-- Claim C7 (confirmed).  After `/*` the scanner's `scan_comment`
consumes input treating block comments as NESTING: with enough fuel (any
bound above the input length), it succeeds exactly when the depth
automaton `matchComment` (the spec's "every opening `/*` must be matched
by a `*/`", depth starting at 1) closes the comment, returning the same
remaining input and producing no token (`handleSlash` yields `none`); if
the automaton runs out of input the scanner reports the error
"Unterminated block comment". -/
theorem c7_block_comment_nesting (cs : List Char) (fuel line col : Nat)
    (hf : cs.length < fuel) :
    (∀ r, matchComment 1 cs = some r →
      ∃ l2 c2, scanComment fuel cs line col = .ok (r, l2, c2))
    ∧ (matchComment 1 cs = none →
      ∃ l2 c2, scanComment fuel cs line col
        = .error (.err l2 c2 "Unterminated block comment"))
    ∧ (∀ r, matchComment 1 cs = some r →
      ∃ l2 c2, handleSlash fuel ('*' :: cs) line col = .ok (none, r, l2, c2)) := by
  refine ⟨?_, ?_, ?_⟩
  · intro r hr
    have h := scanComment_correct fuel cs line col hf
    unfold scanAgrees at h
    rw [hr] at h
    exact h
  · intro hr
    have h := scanComment_correct fuel cs line col hf
    unfold scanAgrees at h
    rw [hr] at h
    exact h
  · intro r hr
    have h := scanComment_correct fuel cs line (col + 1) hf
    unfold scanAgrees at h
    rw [hr] at h
    obtain ⟨l2, c2, hok⟩ := h
    refine ⟨l2, c2, ?_⟩
    simp only [handleSlash]
    rw [hok]

/-- Witness for C7 on `ab*/xy` (closed, remainder `xy`) and `/*a`
(unterminated). -/
theorem c7_block_comment_nesting_witness :
    matchComment 1 "ab*/xy".toList = some "xy".toList
    ∧ (∃ l2 c2, scanComment 7 "ab*/xy".toList 1 0 = .ok ("xy".toList, l2, c2))
    ∧ matchComment 1 "/*a".toList = none
    ∧ (∃ l2 c2, scanComment 4 "/*a".toList 1 0
        = .error (.err l2 c2 "Unterminated block comment")) :=
  ⟨by decide,
   (c7_block_comment_nesting "ab*/xy".toList 7 1 0 (by decide)).1 "xy".toList (by decide),
   by decide,
   (c7_block_comment_nesting "/*a".toList 4 1 0 (by decide)).2.1 (by decide)⟩

/-- Claim C9 (confirmed).  `find_method` looks the name up in the class's
own method map and then along the superclass chain — `struct LoxClass`
has no superclass field anywhere in the repository (no inheritance syntax
exists in the parser), so the chain of every class object is just the
class itself, and the search degenerates to the map lookup (first
conjunct).  A class's arity is 0 when it has no `init` method, and
otherwise the `init` function's arity. -/
theorem c9_find_method_and_arity :
    (∀ (c : LoxClass) (name : String),
      c.findMethod name = findMethodChain (classChain c) name)
    ∧ (∀ c : LoxClass, c.findMethod "init" = none → c.arity = 0)
    ∧ (∀ (c : LoxClass) (g : LoxFunction),
        c.findMethod "init" = some (Object.func g) → c.arity = g.arity) := by
  refine ⟨?_, ?_, ?_⟩
  · intro c name
    cases h : c.methods.lookup name <;>
      simp [findMethodChain, classChain, LoxClass.findMethod, h]
  · intro c h
    simp [LoxClass.arity, h]
  · intro c g h
    simp [LoxClass.arity, h]

/-- Witness for C9: a class whose `init` takes two parameters has arity
2, a class without methods has arity 0, and the chain search agrees with
`find_method` on a concrete lookup. -/
theorem c9_find_method_and_arity_witness :
    classWithInit.arity = 2
    ∧ classNoInit.arity = 0
    ∧ classWithInit.findMethod "init" = findMethodChain (classChain classWithInit) "init" :=
  ⟨(c9_find_method_and_arity.2.2 classWithInit fInit rfl).trans rfl,
   c9_find_method_and_arity.2.1 classNoInit rfl,
   c9_find_method_and_arity.1 classWithInit "init"⟩

/-- Claim C10 (confirmed).  `execute_block` unconditionally restores the
interpreter's current-environment pointer: whatever the block's
statements do — complete normally or unwind with a runtime error, a
`ReturnValue` or a `Break` (the result component is arbitrary in this
statement) — the `environment` field after the call equals the one before
it.  Both the `Block` statement and `LoxFunction::call` enter bodies only
through this function. -/
theorem c10_execute_block_restores_environment
    (fuel : Nat) (st : InterpState) (stmts : List Stmt) (env : Environment) :
    (executeBlock fuel st stmts env).2.environment = st.environment := by
  cases fuel with
  | zero => rfl
  | succ f => rfl

set_option maxRecDepth 1000000

set_option maxHeartbeats 12000000

/-- Claim C8, counterexample.  The claim states that a 256th argument
causes a reported error after which "no exception aborts the parse".  On
the 256-argument call-site stream, the limit error itself is indeed
non-fatal, but the 256th argument expression is left unconsumed, so the
parser's subsequent `consume` of `)` throws the `ParseError`
"Expect ')' after arguments", which aborts `finish_call` and the whole
declaration (returned as `Err` from `Parser::declaration` after
synchronization). -/
theorem c8_overflow_throws :
    thrownMessage (Parser.declaration 1000 (Parser.initP (callToks 256)))
      = some "Expect ')' after arguments" := by decide

/-- Claim C8 (corrected).  255 arguments (and 255 parameters) are
accepted with no error; with a 256th argument or parameter the parser
reports the non-fatal limit error "Can't have more than 255
arguments/parameters" (the `had_error` flag is set and parsing of the
surrounding loop continues), but because the excess argument is not
consumed, the following expectation of `)` fails with a thrown
`ParseError` that aborts that call/declaration; the declaration is
discarded, the parser synchronizes, and `parse()` continues with the
remaining statements. -/
theorem c8_limits :
    (Parser.parse 1000 (Parser.initP (callToks 255))).2.hadError = false
    ∧ (Parser.parse 1000 (Parser.initP (callToks 255))).1.length = 1
    ∧ (Parser.parse 1000 (Parser.initP (callToks 256))).2.errors
        = ["Can't have more than 255 arguments", "Expect ')' after arguments"]
    ∧ (Parser.parse 1000 (Parser.initP (callToks 256))).1.length = 0
    ∧ (Parser.parse 1000 (Parser.initP (funToks 255))).2.hadError = false
    ∧ (Parser.parse 1000 (Parser.initP (funToks 256))).2.errors
        = ["Can't have more than 255 parameters", "Expect ')' after parameters"] := by
  refine ⟨by decide, by decide, by decide, by decide, by decide, by decide⟩

end Lox
